import Mathlib

/-!
# RCReader: pulse-width measurement with pin-change interrupts

A shallow embedding of `src/RCReader.h` and `src/RCReader.cpp`.

Conventions of the embedding:

* machine integers are natural numbers; `uint8_t`, `uint16_t` and `uint32_t`
  arithmetic is reduced modulo `2^8`, `2^16`, `2^32` wherever the C++ code can
  wrap or truncate;
* the global table `_AllRCReaders` is a list of slots, `none` standing for the
  `NULL` pointer and `some r` for a pointer to a heap object whose current
  contents are `r`;
* `micros()` is an input of every operation: one invocation of an operation
  sees one value of the clock;
* undefined behaviour (dereferencing `NULL`, indexing outside the table) is the
  result `none` of an `Option`-valued operation;
* the Arduino macro `digitalPinToBitMask` is not part of the repository and is
  a parameter of the calculator;
* storage that the C++ code leaves uninitialised is passed in as an argument
  holding arbitrary contents;
* the table of readers (`Registry`) holds contents, not addresses: `new` yields a slot with
  fresh contents and a pointer that the destructor copies to another slot is a copy of the
  contents; which slots are `NULL` and what a slot's reader holds evolve as in the program.
  The addresses, `new` and `delete` are kept alongside in `Heap` and `HeapSketch`, where
  deleting a record twice is undefined behaviour;
* writes to the hardware registers (pin mode, interrupt masks) are not part of the model; the
  global interrupt flag that `interrupts()` sets appears only in the step-by-step traces of
  the constructor and the destructor (`Machine`).
-/

namespace RCReaderModel

/-! ## Constants and types of `RCReader.h` -/

/-- Capacity of the table, `#define TOTAL_NUM_OF_PC_INTERRUPTS 18`. -/
def TOTAL_NUM_OF_PC_INTERRUPTS : Nat := 18

/-- Largest value of a `uint32_t`. -/
def UINT32_MAX : Nat := 4294967295

/-- Largest value of a `uint16_t` plus one; a `uint16_t` store keeps a value modulo this. -/
def UINT16_MOD : Nat := 65536

/-- Largest value of a `uint32_t` plus one; `uint32_t` arithmetic is modulo this. -/
def UINT32_MOD : Nat := 4294967296

/-- First analog pin of `RCReaderPin` in the Arduino Mega 2560 core: `A8` is digital pin 62,
the following analog pins are numbered consecutively. -/
def A8 : Nat := 62

/-- The enumeration `RCReaderPin` of `RCReader.h`. -/
inductive RCReaderPin where
  | RCR_PIN_53 | RCR_PIN_52 | RCR_PIN_51 | RCR_PIN_50
  | RCR_PIN_10 | RCR_PIN_11 | RCR_PIN_12 | RCR_PIN_13
  | RCR_PIN_0
  | RCR_PIN_14 | RCR_PIN_15
  | RCR_PIN_A8 | RCR_PIN_A9 | RCR_PIN_A10 | RCR_PIN_A11
  | RCR_PIN_A12 | RCR_PIN_A13 | RCR_PIN_A14 | RCR_PIN_A15
  deriving DecidableEq, Repr

/-- Numeric value of an enumerator of `RCReaderPin`. -/
def RCReaderPin.toNat : RCReaderPin → Nat
  | .RCR_PIN_53 => 53 | .RCR_PIN_52 => 52 | .RCR_PIN_51 => 51 | .RCR_PIN_50 => 50
  | .RCR_PIN_10 => 10 | .RCR_PIN_11 => 11 | .RCR_PIN_12 => 12 | .RCR_PIN_13 => 13
  | .RCR_PIN_0 => 0
  | .RCR_PIN_14 => 14 | .RCR_PIN_15 => 15
  | .RCR_PIN_A8 => A8 | .RCR_PIN_A9 => A8 + 1 | .RCR_PIN_A10 => A8 + 2
  | .RCR_PIN_A11 => A8 + 3 | .RCR_PIN_A12 => A8 + 4 | .RCR_PIN_A13 => A8 + 5
  | .RCR_PIN_A14 => A8 + 6 | .RCR_PIN_A15 => A8 + 7

/-- The enumeration `RCRStatus` of `RCReader.h`. -/
inductive RCRStatus where
  | RCR_OK | RCR_InvalidValue | RCR_Timeout | RCR_InitFailed
  deriving DecidableEq, Repr

/-- The enumeration `_ISR_Mappings` of `RCReader.cpp`. -/
inductive _ISR_Mappings where
  | PCINT0_ISR | PCINT1_ISR | PCINT2_ISR
  deriving DecidableEq, Repr

/-- The struct `_RCReaderObject`: what the interrupt routine knows of one reader. -/
structure _RCReaderObject where
  attatchedPin : Nat
  lastState : Bool
  lastMicros : Nat
  currentValue : Nat
  assignedISR : _ISR_Mappings
  deriving DecidableEq, Repr

/-- The private members of the class `RCReader`. -/
structure RCReader where
  _validMinimum : Nat
  _validMaximum : Nat
  _lastValidValue : Nat
  _timeout : Nat
  _holdLastValidValue : Bool
  _RCReaderIndexNum : Nat
  deriving DecidableEq, Repr

/-- The global table `_AllRCReaders`. -/
abbrev Registry := List (Option _RCReaderObject)

/-- The table as the program starts: `_AllRCReaders[...] = {NULL}`. -/
def _AllRCReaders : Registry := List.replicate TOTAL_NUM_OF_PC_INTERRUPTS none

/-- The pointer stored in slot `i` (`none` is `NULL`). -/
def slot (reg : Registry) (i : Nat) : Option _RCReaderObject := reg.getD i none

/-! ## Construction -/

/-- `RCReader::_PinToInterruptMap`: PCINT number of a pin, 255 for any other number. -/
def RCReader._PinToInterruptMap (pin : Nat) : Nat :=
  match pin with
  | 53 => 0 | 52 => 1 | 51 => 2 | 50 => 3
  | 10 => 4 | 11 => 5 | 12 => 6 | 13 => 7
  | 0 => 8 | 15 => 9 | 14 => 10
  | 62 => 16 | 63 => 17 | 64 => 18 | 65 => 19
  | 66 => 20 | 67 => 21 | 68 => 22 | 69 => 23
  | _ => 255

/-- The search loop of the constructor: `for (i = 0; i < TOTAL_NUM_OF_PC_INTERRUPTS; i++)`,
leaving with `some i` at the first `NULL` slot and with `none` (no space) when the bound is
reached. The first argument bounds the number of iterations. -/
def findFreeSlot (reg : Registry) : Nat → Nat → Option Nat
  | 0, _ => none
  | fuel + 1, i =>
    if i < TOTAL_NUM_OF_PC_INTERRUPTS then
      if slot reg i = none then some i else findFreeSlot reg fuel (i + 1)
    else none

/-- The `if / else if / else if` of the constructor choosing `assignedISR` from the PCINT
number. The local variable has no initialiser, so outside 0..23 it keeps the arbitrary
contents `indeterminate`. -/
def selectISR (interruptNum : Nat) (indeterminate : _ISR_Mappings) : _ISR_Mappings :=
  if interruptNum ≤ 7 then _ISR_Mappings.PCINT0_ISR
  else if 8 ≤ interruptNum ∧ interruptNum ≤ 15 then _ISR_Mappings.PCINT1_ISR
  else if 16 ≤ interruptNum ∧ interruptNum ≤ 23 then _ISR_Mappings.PCINT2_ISR
  else indeterminate

/-- The constructor `RCReader::RCReader`. `micros` is the value `micros()` returns, `mem` the
contents of the storage the object is built in (the constructor assigns only some members),
`indeterminate` the contents of the uninitialised local `assignedISR`. The result is the new
object and the table. Writes to the pin and interrupt-mask registers are not part of the
model. -/
def RCReader.new (reg : Registry) (micros : Nat) (PinToAttach : RCReaderPin)
    (timeoutInMilliseconds validMinimumValue validMaximumValue : Nat)
    (holdLastValueOnFailure : Bool) (mem : RCReader) (indeterminate : _ISR_Mappings) :
    RCReader × Registry :=
  match findFreeSlot reg TOTAL_NUM_OF_PC_INTERRUPTS 0 with
  | none => ({ mem with _RCReaderIndexNum := TOTAL_NUM_OF_PC_INTERRUPTS + 1 }, reg)
  | some i =>
    let assignedISR := selectISR (RCReader._PinToInterruptMap PinToAttach.toNat) indeterminate
    ({ mem with
        _RCReaderIndexNum := i
        _validMinimum := validMinimumValue
        _validMaximum := validMaximumValue
        _holdLastValidValue := holdLastValueOnFailure
        _timeout := timeoutInMilliseconds },
     reg.set i (some
      { attatchedPin := PinToAttach.toNat
        lastState := false
        lastMicros := micros
        currentValue := 0
        assignedISR := assignedISR }))

/-! ## Destruction -/

/-- The shifting loop of the destructor,
`for (i = _RCReaderIndexNum + 1; i < TOTAL_NUM_OF_PC_INTERRUPTS; i++)`: a `NULL` slot `i`
clears slot `i - 1` and ends the loop, any other slot is copied to slot `i - 1`. The first
argument bounds the number of iterations. -/
def shiftDown : Nat → Nat → Registry → Registry
  | 0, _, reg => reg
  | fuel + 1, i, reg =>
    if i < TOTAL_NUM_OF_PC_INTERRUPTS then
      match slot reg i with
      | none => reg.set (i - 1) none
      | some r => shiftDown fuel (i + 1) (reg.set (i - 1) (some r))
    else reg

/-- The destructor `RCReader::~RCReader`, run on the table for the object `self`. Indexing
the table at or above its size is undefined behaviour (`none`). The loop counter is a
`uint8_t`. The statement `delete _AllRCReaders[_RCReaderIndexNum]` acts on the heap, which
this table of contents does not hold: it is part of `RCReader.deleteOnHeap`, where deleting
a record a second time is undefined behaviour as well. -/
def RCReader.delete (reg : Registry) (self : RCReader) : Option Registry :=
  if self._RCReaderIndexNum < TOTAL_NUM_OF_PC_INTERRUPTS then
    some (shiftDown TOTAL_NUM_OF_PC_INTERRUPTS ((self._RCReaderIndexNum + 1) % 256)
      (reg.set self._RCReaderIndexNum none))
  else none

/-! ## Setters -/

/-- The setter `RCReader::setTimeout`. -/
def RCReader.setTimeout (self : RCReader) (timeoutInMilliseconds : Nat) : RCReader :=
  { self with _timeout := timeoutInMilliseconds }

/-- The setter `RCReader::setValidRange`. -/
def RCReader.setValidRange (self : RCReader) (validMinimumValue validMaximumValue : Nat)
    (holdLastValueOnFailure : Bool) : RCReader :=
  { self with
      _validMinimum := validMinimumValue
      _validMaximum := validMaximumValue
      _holdLastValidValue := holdLastValueOnFailure }

/-! ## Reading -/

/-- What a call of the detailed `getMicroseconds(uint16_t* Value)` leaves behind: the returned
status, the contents of `*Value` and the object. -/
structure ReadOutcome where
  status : RCRStatus
  Value : Nat
  self : RCReader
  deriving DecidableEq, Repr

/-- The local `passedTime` of `getMicroseconds(uint16_t*)`, a `uint32_t`. -/
def passedTime (lastMicros micros : Nat) : Nat :=
  if lastMicros > micros then ((UINT32_MAX - lastMicros) + micros) % UINT32_MOD
  else (micros - lastMicros) % UINT32_MOD

/-- The detailed read `RCReader::getMicroseconds(uint16_t* Value)`. `Value` is what `*Value`
holds before the call, `micros` the value of `micros()`. Dereferencing a `NULL` slot or
indexing outside the table is undefined behaviour (`none`). -/
def RCReader.getMicroseconds (reg : Registry) (micros : Nat) (self : RCReader) (Value : Nat) :
    Option ReadOutcome :=
  if self._RCReaderIndexNum = TOTAL_NUM_OF_PC_INTERRUPTS + 1 then
    some { status := RCRStatus.RCR_InitFailed, Value := Value, self := self }
  else if self._RCReaderIndexNum < TOTAL_NUM_OF_PC_INTERRUPTS then
    match slot reg self._RCReaderIndexNum with
    | none => none
    | some r =>
      if passedTime r.lastMicros micros / 1000 > self._timeout ∧ self._timeout ≠ 0 then
        some { status := RCRStatus.RCR_Timeout, Value := r.currentValue, self := self }
      else if (r.currentValue ≥ self._validMinimum ∧ r.currentValue ≤ self._validMaximum) ∨
          (self._validMinimum = 0 ∧ self._validMaximum = 0) then
        some { status := RCRStatus.RCR_OK, Value := r.currentValue,
               self := { self with _lastValidValue := r.currentValue } }
      else if self._holdLastValidValue then
        some { status := RCRStatus.RCR_InvalidValue, Value := self._lastValidValue, self := self }
      else
        some { status := RCRStatus.RCR_InvalidValue, Value := r.currentValue, self := self }
  else none

/-- Conversion of a `uint16_t` to the return type `int`, which on the ATmega2560 (the only
target the header accepts) is 16 bits wide, two's complement. -/
def toInt16 (v : Nat) : Int :=
  if v % UINT16_MOD < 32768 then ((v % UINT16_MOD : Nat) : Int)
  else ((v % UINT16_MOD : Nat) : Int) - 65536

/-- The simplified read `int RCReader::getMicroseconds()`; the overload without argument is
named apart here. `value` is the arbitrary initial contents of the uninitialised local.
The result is the returned `int` and the object. -/
def RCReader.getMicrosecondsSimplified (reg : Registry) (micros : Nat) (self : RCReader)
    (value : Nat) : Option (Int × RCReader) :=
  match RCReader.getMicroseconds reg micros self value with
  | none => none
  | some out =>
    if out.status = RCRStatus.RCR_OK ∨ out.self._holdLastValidValue = true then
      some (toInt16 out.Value, out.self)
    else some (-1, out.self)

/-! ## The calculation run by the interrupt routines -/

/-- The level `currentPinState` the calculator reads for a pin from the port snapshot.
`digitalPinToBitMask` is the Arduino macro, not part of the repository. -/
def currentPinState (digitalPinToBitMask : Nat → Nat) (attatchedPin pinStates : Nat) : Bool :=
  if attatchedPin = 0 then
    if pinStates &&& 0x80 ≠ 0 then true else false
  else if pinStates &&& digitalPinToBitMask attatchedPin ≠ 0 then true
  else false

/-- The body of the loop of `_calculateRCReaderCurrentValue` for one reader whose
`assignedISR` matches. The difference of two `uint32_t` is stored in the `uint16_t`
member `currentValue`. -/
def updateReader (digitalPinToBitMask : Nat → Nat) (pinStates micros : Nat)
    (currentReader : _RCReaderObject) : _RCReaderObject :=
  let state := currentPinState digitalPinToBitMask currentReader.attatchedPin pinStates
  let r :=
    if state = true ∧ currentReader.lastState = false then
      { currentReader with lastMicros := micros }
    else if state = false ∧ currentReader.lastState = true then
      if currentReader.lastMicros < micros then
        { currentReader with
            currentValue := ((micros - currentReader.lastMicros) % UINT32_MOD) % UINT16_MOD }
      else
        { currentReader with
            currentValue :=
              (((UINT32_MAX - currentReader.lastMicros) + micros) % UINT32_MOD) % UINT16_MOD }
    else currentReader
  { r with lastState := state }

/-- The loop of `_calculateRCReaderCurrentValue` from index `i` on; the first argument bounds
the number of iterations. -/
def calculateFrom (digitalPinToBitMask : Nat → Nat) (currentISR : _ISR_Mappings)
    (pinStates micros : Nat) : Nat → Nat → Registry → Registry
  | 0, _, reg => reg
  | fuel + 1, i, reg =>
    if i < TOTAL_NUM_OF_PC_INTERRUPTS then
      match slot reg i with
      | none => reg
      | some r =>
        if r.assignedISR = currentISR then
          calculateFrom digitalPinToBitMask currentISR pinStates micros fuel (i + 1)
            (reg.set i (some (updateReader digitalPinToBitMask pinStates micros r)))
        else
          calculateFrom digitalPinToBitMask currentISR pinStates micros fuel (i + 1) reg
    else reg

/-- The function `_calculateRCReaderCurrentValue(currentISR, pinStates)`. -/
def _calculateRCReaderCurrentValue (digitalPinToBitMask : Nat → Nat)
    (currentISR : _ISR_Mappings) (pinStates micros : Nat) (reg : Registry) : Registry :=
  calculateFrom digitalPinToBitMask currentISR pinStates micros TOTAL_NUM_OF_PC_INTERRUPTS 0 reg

/-- What one call of `_calculateRCReaderCurrentValue` does to a reader it reaches: the body
of the loop, guarded by `assignedISR == currentISR`. -/
def visitReader (digitalPinToBitMask : Nat → Nat) (currentISR : _ISR_Mappings)
    (pinStates micros : Nat) (r : _RCReaderObject) : _RCReaderObject :=
  if r.assignedISR = currentISR then updateReader digitalPinToBitMask pinStates micros r else r

/-! ## Sequences of calls -/

/-- A call of one of the two setters. -/
inductive SetterCall where
  | setTimeout (timeoutInMilliseconds : Nat)
  | setValidRange (validMinimumValue validMaximumValue : Nat) (holdLastValueOnFailure : Bool)
  deriving DecidableEq, Repr

/-- Run one setter call on an object. -/
def SetterCall.run (self : RCReader) : SetterCall → RCReader
  | .setTimeout ms => self.setTimeout ms
  | .setValidRange lo hi hold => self.setValidRange lo hi hold

/-- Run a sequence of setter calls on an object, first call first. -/
def runSetters (self : RCReader) (calls : List SetterCall) : RCReader :=
  calls.foldl SetterCall.run self

/-- The arguments of one constructor call, with the clock value it sees and the arbitrary
contents of the storage it leaves uninitialised. -/
structure CtorCall where
  PinToAttach : RCReaderPin
  timeoutInMilliseconds : Nat
  validMinimumValue : Nat
  validMaximumValue : Nat
  holdLastValueOnFailure : Bool
  micros : Nat
  mem : RCReader
  indeterminate : _ISR_Mappings
  deriving DecidableEq, Repr

/-- The constructor run on the arguments of a `CtorCall`. -/
def CtorCall.run (reg : Registry) (c : CtorCall) : RCReader × Registry :=
  RCReader.new reg c.micros c.PinToAttach c.timeoutInMilliseconds c.validMinimumValue
    c.validMaximumValue c.holdLastValueOnFailure c.mem c.indeterminate

/-- The table together with the `RCReader` objects alive, oldest first. -/
structure Sketch where
  table : Registry
  live : List RCReader
  deriving DecidableEq, Repr

/-- What a sketch does to the table: it constructs an object, or destroys the `k`-th of the
objects alive. -/
inductive Event where
  | construct (c : CtorCall)
  | destroy (k : Nat)
  deriving DecidableEq, Repr

/-- The state before the first constructor call. -/
def Sketch.start : Sketch := { table := _AllRCReaders, live := [] }

/-- One event, on the table of contents. The result is `none` when there is no `k`-th object
alive or when its destructor indexes outside the table, which is the case exactly for an
object whose construction found the table full. `HeapSketch.step` adds the heap. -/
def Sketch.step (s : Sketch) : Event → Option Sketch
  | .construct c =>
    some { table := (c.run s.table).2, live := s.live ++ [(c.run s.table).1] }
  | .destroy k =>
    match s.live[k]? with
    | none => none
    | some h =>
      match RCReader.delete s.table h with
      | none => none
      | some reg => some { table := reg, live := s.live.eraseIdx k }

/-- A sequence of events, first event first. -/
def Sketch.run (s : Sketch) : List Event → Option Sketch
  | [] => some s
  | e :: es =>
    match s.step e with
    | none => none
    | some t => t.run es

/-- No occupied slot of the table follows a free slot. -/
def Contiguous (reg : Registry) : Prop :=
  ∀ j, j < reg.length → ∀ i, i < j → slot reg i = none → slot reg j = none

/-- The values of the Arduino macro `digitalPinToBitMask` on the Mega 2560 for the pins of
`RCReaderPin`: the bit of the pin within its port. -/
def megaBitMask (pin : Nat) : Nat :=
  match pin with
  | 53 => 1 | 52 => 2 | 51 => 4 | 50 => 8
  | 10 => 16 | 11 => 32 | 12 => 64 | 13 => 128
  | 0 => 1 | 15 => 1 | 14 => 2
  | 62 => 1 | 63 => 2 | 64 => 4 | 65 => 8
  | 66 => 16 | 67 => 32 | 68 => 64 | 69 => 128
  | _ => 0

/-- A table with the single reader of pin 53 in slot 0, its line low, no pulse measured. -/
def oneReader (lastMicros : Nat) : Registry :=
  some { attatchedPin := 53, lastState := false, lastMicros := lastMicros, currentValue := 0,
         assignedISR := _ISR_Mappings.PCINT0_ISR } ::
    List.replicate 17 none

/-- An object with every member zero, as contents of fresh storage. -/
def zeroed : RCReader :=
  { _validMinimum := 0, _validMaximum := 0, _lastValidValue := 0, _timeout := 0,
    _holdLastValidValue := false, _RCReaderIndexNum := 0 }

/-- A constructor call on a pin at a clock value with a timeout, no valid range. -/
def ctorOn (pin : RCReaderPin) (micros timeoutInMilliseconds : Nat) : CtorCall :=
  { PinToAttach := pin, timeoutInMilliseconds := timeoutInMilliseconds, validMinimumValue := 0,
    validMaximumValue := 0, holdLastValueOnFailure := false, micros := micros, mem := zeroed,
    indeterminate := _ISR_Mappings.PCINT0_ISR }

/-- The enumerators of `RCReaderPin` in the order of their declaration. -/
def allPins : List RCReaderPin :=
  [.RCR_PIN_53, .RCR_PIN_52, .RCR_PIN_51, .RCR_PIN_50, .RCR_PIN_10, .RCR_PIN_11, .RCR_PIN_12,
   .RCR_PIN_13, .RCR_PIN_0, .RCR_PIN_14, .RCR_PIN_15, .RCR_PIN_A8, .RCR_PIN_A9, .RCR_PIN_A10,
   .RCR_PIN_A11, .RCR_PIN_A12, .RCR_PIN_A13, .RCR_PIN_A14, .RCR_PIN_A15]

/-- Eighteen constructor calls, one on each of the first eighteen pins, at clock value 0. -/
def fillEvents : List Event :=
  (allPins.take 18).map fun pin => Event.construct (ctorOn pin 0 0)

/-- The table after the eighteen constructor calls of `fillEvents`. -/
def fullTable : Registry :=
  (allPins.take 18).foldl (fun reg pin => ((ctorOn pin 0 0).run reg).2) _AllRCReaders

/-- Three constructor calls: pin 53 at clock value 0, pin 52 at 1000 with timeout 1000 ms,
pin 51 at 5000000. -/
def threeReaders : List Event :=
  [Event.construct (ctorOn RCReaderPin.RCR_PIN_53 0 0),
   Event.construct (ctorOn RCReaderPin.RCR_PIN_52 1000 1000),
   Event.construct (ctorOn RCReaderPin.RCR_PIN_51 5000000 0)]

/-- The contents of the slot that the index of the `k`-th object alive names. -/
def Sketch.recordOf (s : Sketch) (k : Nat) : Option _RCReaderObject :=
  (s.live[k]?).bind fun h => slot s.table h._RCReaderIndexNum

/-- The detailed read of the `k`-th object alive. -/
def Sketch.read (s : Sketch) (k micros Value : Nat) : Option ReadOutcome :=
  (s.live[k]?).bind fun h => h.getMicroseconds s.table micros Value

/-- The slots below `n` are occupied and all others are free. -/
def OccupiedBelow (reg : Registry) (n : Nat) : Prop :=
  ∀ j, slot reg j ≠ none ↔ j < n

/-- Three constructor calls, the destruction of the first object, a fourth constructor call
and the destruction of what is then the second object alive. -/
def churn : List Event :=
  threeReaders ++
    [Event.destroy 0, Event.construct (ctorOn RCReaderPin.RCR_PIN_50 6000000 0), Event.destroy 1]

/-- The state the events of `churn` lead to. -/
def churnResult : Sketch := (Sketch.start.run churn).getD Sketch.start

/-- The record the constructor stores for a pin at a clock value. -/
def freshRecord (PinToAttach : RCReaderPin) (micros : Nat) (indeterminate : _ISR_Mappings) :
    _RCReaderObject :=
  { attatchedPin := PinToAttach.toNat
    lastState := false
    lastMicros := micros
    currentValue := 0
    assignedISR := selectISR (RCReader._PinToInterruptMap PinToAttach.toNat) indeterminate }

/-- A reader object with range 30000..50000, holding, no timeout, index 0. -/
def wideRangeReader : RCReader :=
  { _validMinimum := 30000, _validMaximum := 50000, _lastValidValue := 0, _timeout := 0,
    _holdLastValidValue := true, _RCReaderIndexNum := 0 }

/-- The table of the single reader of pin 53 after a pulse from clock value `T` to `T + D`:
the calculator is run with the line high at `T` and with the line low at `T + D`. -/
def afterPulse (reg : Registry) (T D : Nat) : Registry :=
  _calculateRCReaderCurrentValue megaBitMask _ISR_Mappings.PCINT0_ISR 0 (T + D)
    (_calculateRCReaderCurrentValue megaBitMask _ISR_Mappings.PCINT0_ISR 1 T reg)

/-- The elapsed time `_calculateRCReaderCurrentValue` computes on a falling edge, as the
`uint32_t` value of the right-hand side before it is stored in the `uint16_t` member
`currentValue`. -/
def fallingEdgeElapsed (lastMicros micros : Nat) : Nat :=
  if lastMicros < micros then (micros - lastMicros) % UINT32_MOD
  else ((UINT32_MAX - lastMicros) + micros) % UINT32_MOD

/-- The elapsed time in the words of the specification (section 4.2,
wraparoundSafeSubtract), with `UINT32_MAX` as the maximum of the counter. -/
def specWraparoundSafeSubtract (now earlier : Nat) : Nat :=
  if earlier > now then (UINT32_MAX - earlier) + now else now - earlier

/-- Nineteen constructor calls, one on each pin of `RCReaderPin`, at clock value 0. -/
def allPinEvents : List Event :=
  allPins.map fun pin => Event.construct (ctorOn pin 0 0)

/-! ## One record per pin -/

/-- Some occupied slot of the table holds a record for the pin. -/
def pinInUse (reg : Registry) (pin : Nat) : Bool :=
  reg.any fun x =>
    match x with
    | some r => r.attatchedPin == pin
    | none => false

/-- No two occupied slots of the table hold a record for the same pin. -/
def DistinctPins (reg : Registry) : Prop :=
  ∀ i j r1 r2, i ≠ j → slot reg i = some r1 → slot reg j = some r2 →
    r1.attatchedPin ≠ r2.attatchedPin

/-- An event of a sketch that keeps to one object per pin and never destroys an object while
the table is full, other than the object of the last slot: a constructor call is on a pin no
record in the table is for; a destruction happens with the last slot free or is that of the
object with the index of the last slot. -/
def Event.disciplined (s : Sketch) : Event → Bool
  | .construct c => !pinInUse s.table c.PinToAttach.toNat
  | .destroy k =>
    match s.live[k]? with
    | none => true
    | some h =>
      (slot s.table (TOTAL_NUM_OF_PC_INTERRUPTS - 1)).isNone ||
        h._RCReaderIndexNum == TOTAL_NUM_OF_PC_INTERRUPTS - 1

/-- Every event of the sequence is disciplined in the state it happens in. -/
def Sketch.disciplined (s : Sketch) : List Event → Bool
  | [] => true
  | e :: es =>
    e.disciplined s &&
      match s.step e with
      | none => true
      | some t => t.disciplined es

/-- Two constructor calls on pin 53. -/
def twoOnOnePin : List Event :=
  [Event.construct (ctorOn RCReaderPin.RCR_PIN_53 0 0),
   Event.construct (ctorOn RCReaderPin.RCR_PIN_53 1000 0)]

/-- The state the events of `twoOnOnePin` lead to. -/
def twoOnOnePinResult : Sketch := (Sketch.start.run twoOnOnePin).getD Sketch.start

/-! ## Constructor and destructor, one assignment at a time -/

/-- The table together with the global interrupt flag of the processor: a pin-change
interrupt routine can run between two statements while the flag is set. -/
structure Machine where
  table : Registry
  interruptsEnabled : Bool
  deriving DecidableEq, Repr

/-- The tables the shifting loop of the destructor passes through, one after each assignment
to a slot. -/
def shiftDownTrace : Nat → Nat → Registry → List Registry
  | 0, _, _ => []
  | fuel + 1, i, reg =>
    if i < TOTAL_NUM_OF_PC_INTERRUPTS then
      match slot reg i with
      | none => [reg.set (i - 1) none]
      | some r =>
        reg.set (i - 1) (some r) :: shiftDownTrace fuel (i + 1) (reg.set (i - 1) (some r))
    else []

/-- The states the destructor `RCReader::~RCReader` passes through, one after each assignment
to a slot of the table. No statement of the destructor changes the interrupt flag. -/
def RCReader.deleteTrace (m : Machine) (self : RCReader) : Option (List Machine) :=
  if self._RCReaderIndexNum < TOTAL_NUM_OF_PC_INTERRUPTS then
    some ((m.table.set self._RCReaderIndexNum none ::
        shiftDownTrace TOTAL_NUM_OF_PC_INTERRUPTS ((self._RCReaderIndexNum + 1) % 256)
          (m.table.set self._RCReaderIndexNum none)).map
      fun t => { table := t, interruptsEnabled := m.interruptsEnabled })
  else none

/-- The states the constructor `RCReader::RCReader` passes through once its search loop has
found a free slot: one after the assignment to the slot, one after the call `interrupts()`
that ends the constructor. The constructor has no call of `noInterrupts()`. On a full table
it returns before either statement. -/
def CtorCall.trace (m : Machine) (c : CtorCall) : List Machine :=
  match findFreeSlot m.table TOTAL_NUM_OF_PC_INTERRUPTS 0 with
  | none => []
  | some i =>
    [{ table := m.table.set i (some (freshRecord c.PinToAttach c.micros c.indeterminate)),
       interruptsEnabled := m.interruptsEnabled },
     { table := m.table.set i (some (freshRecord c.PinToAttach c.micros c.indeterminate)),
       interruptsEnabled := true }]

/-- The state a constructor call ends in. -/
def Machine.construct (m : Machine) (c : CtorCall) : Machine :=
  (c.trace m).getLastD m

/-- The state after the three constructor calls of `threeReaders`, started with the empty
table and the interrupt flag clear. -/
def threeMachine : Machine :=
  [ctorOn RCReaderPin.RCR_PIN_53 0 0, ctorOn RCReaderPin.RCR_PIN_52 1000 1000,
   ctorOn RCReaderPin.RCR_PIN_51 5000000 0].foldl Machine.construct
    { table := _AllRCReaders, interruptsEnabled := false }

/-- A table with three readers: pin 53 (served by `PCINT0_ISR`) with its line low, pin 0
(served by `PCINT1_ISR`) with its line low, pin 52 (served by `PCINT0_ISR`) with its line
high since clock value 1000. -/
def mixedReaders : Registry :=
  [some { attatchedPin := 53, lastState := false, lastMicros := 0, currentValue := 0,
          assignedISR := _ISR_Mappings.PCINT0_ISR },
   some { attatchedPin := 0, lastState := false, lastMicros := 0, currentValue := 0,
          assignedISR := _ISR_Mappings.PCINT1_ISR },
   some { attatchedPin := 52, lastState := true, lastMicros := 1000, currentValue := 0,
          assignedISR := _ISR_Mappings.PCINT0_ISR }] ++ List.replicate 15 none

/-! ## The heap -/

/-- The pointer stored in slot `i` of a table of pointers, whatever a pointer is made of
(`none` is `NULL`). -/
def slotOf {α : Type} (table : List (Option α)) (i : Nat) : Option α := table.getD i none

/-- The shifting loop of the destructor, the loop of `shiftDown`, on a table of pointers,
whatever a pointer is made of. -/
def shiftDownOf {α : Type} : Nat → Nat → List (Option α) → List (Option α)
  | 0, _, table => table
  | fuel + 1, i, table =>
    if i < TOTAL_NUM_OF_PC_INTERRUPTS then
      match slotOf table i with
      | none => table.set (i - 1) none
      | some p => shiftDownOf fuel (i + 1) (table.set (i - 1) (some p))
    else table

/-- The table `_AllRCReaders` as addresses, with the heap: the addresses of the records that
`new` has made and `delete` has not freed, and the address the next `new` returns. Every
`new` returns an address never used before. -/
structure Heap where
  pointers : List (Option Nat)
  allocated : List Nat
  nextAddress : Nat
  deriving DecidableEq, Repr

/-- The statement `delete p`: nothing for `NULL`, the record is freed when it is allocated,
and undefined behaviour (`none`) when it has been freed before. -/
def Heap.release (allocated : List Nat) : Option Nat → Option (List Nat)
  | none => some allocated
  | some p => if p ∈ allocated then some (allocated.erase p) else none

/-- The statement `_AllRCReaders[_RCReaderIndexNum] = new _RCReaderObject{...}` of the
constructor, for the object the constructor yields; an object whose construction found the
table full (index 19) has returned before. -/
def RCReader.newOnHeap (h : Heap) (self : RCReader) : Heap :=
  if self._RCReaderIndexNum = TOTAL_NUM_OF_PC_INTERRUPTS + 1 then h
  else
    { pointers := h.pointers.set self._RCReaderIndexNum (some h.nextAddress)
      allocated := h.nextAddress :: h.allocated
      nextAddress := h.nextAddress + 1 }

/-- The destructor `RCReader::~RCReader` on the addresses: `delete` of the pointer in the
slot of the object, then the slot is cleared and the later slots are shifted down. -/
def RCReader.deleteOnHeap (h : Heap) (self : RCReader) : Option Heap :=
  if self._RCReaderIndexNum < TOTAL_NUM_OF_PC_INTERRUPTS then
    match Heap.release h.allocated (slotOf h.pointers self._RCReaderIndexNum) with
    | none => none
    | some allocated =>
      some
        { pointers := shiftDownOf TOTAL_NUM_OF_PC_INTERRUPTS
            ((self._RCReaderIndexNum + 1) % 256) (h.pointers.set self._RCReaderIndexNum none)
          allocated := allocated
          nextAddress := h.nextAddress }
  else none

/-- The state of a sketch with the addresses and the heap kept alongside the table of
contents. -/
structure HeapSketch where
  sketch : Sketch
  heap : Heap
  deriving DecidableEq, Repr

/-- The state before the first constructor call: every pointer `NULL`, nothing allocated. -/
def HeapSketch.start : HeapSketch :=
  { sketch := Sketch.start
    heap := { pointers := List.replicate TOTAL_NUM_OF_PC_INTERRUPTS none, allocated := [],
              nextAddress := 0 } }

/-- One event, on the contents as in `Sketch.step` and on the addresses; `none` also when the
destructor deletes a record that has been freed. -/
def HeapSketch.step (s : HeapSketch) (e : Event) : Option HeapSketch :=
  match s.sketch.step e with
  | none => none
  | some t =>
    match e with
    | .construct c =>
      some { sketch := t, heap := RCReader.newOnHeap s.heap (c.run s.sketch.table).1 }
    | .destroy k =>
      match s.sketch.live[k]? with
      | none => none
      | some h =>
        match RCReader.deleteOnHeap s.heap h with
        | none => none
        | some heap => some { sketch := t, heap := heap }

/-- A sequence of events, first event first. -/
def HeapSketch.run (s : HeapSketch) : List Event → Option HeapSketch
  | [] => some s
  | e :: es =>
    match s.step e with
    | none => none
    | some t => t.run es

/-! ## Properties -/

section Slots

/-- Writing slot `i` leaves every other slot as it is. -/
theorem slot_set_ne (reg : Registry) (i j : Nat) (v : Option _RCReaderObject) (h : i ≠ j) :
    slot (reg.set i v) j = slot reg j := by
  unfold slot
  simp [List.getD_eq_getElem?_getD, List.getElem?_set_ne h]

/-- Reading back a slot of the table that was just written. -/
theorem slot_set_eq (reg : Registry) (i : Nat) (v : Option _RCReaderObject)
    (h : i < reg.length) : slot (reg.set i v) i = v := by
  unfold slot
  simp [List.getD_eq_getElem?_getD, h]

/-- An occupied slot lies inside the table. -/
theorem slot_lt_length (reg : Registry) (i : Nat) (r : _RCReaderObject)
    (h : slot reg i = some r) : i < reg.length := by
  unfold slot at h
  by_contra hc
  rw [List.getD_eq_getElem?_getD, List.getElem?_eq_none (by omega)] at h
  simp at h

/-- A slot outside the table reads as `NULL`. -/
theorem slot_of_length_le (reg : Registry) (i : Nat) (h : reg.length ≤ i) :
    slot reg i = none := by
  unfold slot
  rw [List.getD_eq_getElem?_getD, List.getElem?_eq_none h]
  rfl

end Slots

section Calculator

/-- The calculator loop started at index `i` leaves the slots below `i` as they are. -/
theorem calculateFrom_slot_lt (mask : Nat → Nat) (g : _ISR_Mappings) (ps now : Nat)
    (fuel i : Nat) (reg : Registry) (k : Nat) (hk : k < i) :
    slot (calculateFrom mask g ps now fuel i reg) k = slot reg k := by
  induction fuel generalizing i reg with
  | zero => rfl
  | succ n ih =>
    unfold calculateFrom
    split
    · split
      · rfl
      · split
        · rw [ih (i + 1) _ (by omega), slot_set_ne _ _ _ _ (by omega)]
        · exact ih (i + 1) _ (by omega)
    · rfl

/-- The calculator loop started at index `i` with enough iterations left visits slot `k`
when every slot from `i` up to `k` is occupied. -/
theorem calculateFrom_slot_ge (mask : Nat → Nat) (g : _ISR_Mappings) (ps now : Nat)
    (fuel i : Nat) (reg : Registry) (k : Nat) (hik : i ≤ k)
    (hk : k < TOTAL_NUM_OF_PC_INTERRUPTS) (hfuel : TOTAL_NUM_OF_PC_INTERRUPTS ≤ fuel + i)
    (hocc : ∀ j, i ≤ j → j < k → slot reg j ≠ none) :
    slot (calculateFrom mask g ps now fuel i reg) k =
      (slot reg k).map (visitReader mask g ps now) := by
  induction fuel generalizing i reg with
  | zero => omega
  | succ n ih =>
    unfold calculateFrom
    rw [if_pos (by omega : i < TOTAL_NUM_OF_PC_INTERRUPTS)]
    cases hs : slot reg i with
    | none =>
      have hik2 : i = k := by
        by_contra hne
        exact hocc i (Nat.le_refl i) (by omega) hs
      subst hik2
      simp only [hs]
      rfl
    | some r =>
      simp only []
      have hlen : i < reg.length := slot_lt_length reg i r hs
      by_cases hik2 : i = k
      · subst hik2
        rw [hs]
        split
        · next hg =>
          rw [calculateFrom_slot_lt _ _ _ _ _ _ _ _ (by omega), slot_set_eq _ _ _ hlen]
          simp [visitReader, hg]
        · next hg =>
          rw [calculateFrom_slot_lt _ _ _ _ _ _ _ _ (by omega), hs]
          simp [visitReader, hg]
      · split
        · rw [ih (i + 1) _ (by omega) (by omega), slot_set_ne _ _ _ _ hik2]
          intro j hj1 hj2
          rw [slot_set_ne _ _ _ _ (by omega)]
          exact hocc j (by omega) hj2
        · exact ih (i + 1) _ (by omega) (by omega) (fun j hj1 hj2 => hocc j (by omega) hj2)

/-- One call of `_calculateRCReaderCurrentValue` visits slot `k` when every slot below `k` is
occupied. -/
theorem calculate_slot (mask : Nat → Nat) (g : _ISR_Mappings) (ps now : Nat)
    (reg : Registry) (k : Nat) (hk : k < TOTAL_NUM_OF_PC_INTERRUPTS)
    (hocc : ∀ j, j < k → slot reg j ≠ none) :
    slot (_calculateRCReaderCurrentValue mask g ps now reg) k =
      (slot reg k).map (visitReader mask g ps now) :=
  calculateFrom_slot_ge mask g ps now _ 0 reg k (Nat.zero_le k) hk (by omega)
    (fun j _ hj => hocc j hj)

/-- C5, as stated, fails: for the reader of pin 53 in slot 0 with its line low, a rising edge
at clock value 1000 and a falling edge at 1000 + 70000 leave the measured value 4464, and a
rising and a falling edge both at 1000 leave 65535. -/
theorem round_trip_fails :
    (slot (_calculateRCReaderCurrentValue megaBitMask _ISR_Mappings.PCINT0_ISR 0 (1000 + 70000)
        (_calculateRCReaderCurrentValue megaBitMask _ISR_Mappings.PCINT0_ISR 1 1000
          (oneReader 0))) 0).map (fun r => r.currentValue) = some 4464 ∧
    (slot (_calculateRCReaderCurrentValue megaBitMask _ISR_Mappings.PCINT0_ISR 0 (1000 + 0)
        (_calculateRCReaderCurrentValue megaBitMask _ISR_Mappings.PCINT0_ISR 1 1000
          (oneReader 0))) 0).map (fun r => r.currentValue) = some 65535 := by
  decide

/-- A rising edge: a reader with its line low that reads HIGH gets the clock value as
`lastMicros` and `lastState` HIGH. -/
theorem updateReader_rising (mask : Nat → Nat) (ps now : Nat) (r : _RCReaderObject)
    (hlow : r.lastState = false) (hhigh : currentPinState mask r.attatchedPin ps = true) :
    updateReader mask ps now r = { r with lastMicros := now, lastState := true } := by
  unfold updateReader
  simp [hlow, hhigh]

/-- A falling edge with the clock beyond `lastMicros`, no wrap: the difference is stored
modulo `2^16`. -/
theorem updateReader_falling (mask : Nat → Nat) (ps now : Nat) (r : _RCReaderObject)
    (hhigh : r.lastState = true) (hlow : currentPinState mask r.attatchedPin ps = false)
    (hlt : r.lastMicros < now) (hnow : now ≤ UINT32_MAX) :
    updateReader mask ps now r =
      { r with currentValue := (now - r.lastMicros) % UINT16_MOD, lastState := false } := by
  have hm : (now - r.lastMicros) % UINT32_MOD = now - r.lastMicros := by
    apply Nat.mod_eq_of_lt
    unfold UINT32_MAX at hnow
    unfold UINT32_MOD
    omega
  unfold updateReader
  simp [hhigh, hlow, hlt, hm]

/-- C5, amended to `1 ≤ D < 65536`. A reader in slot `i` of a table whose slots below `i` are
occupied, with its line low: the calculator run for the group of the reader with the pin
HIGH at clock value `T`, then with the pin LOW at clock value `T + D`, where `T + D` does not
exceed `UINT32_MAX`, leaves the measured value `D` (and `lastMicros = T`, the line low). -/
theorem round_trip (mask : Nat → Nat) (reg : Registry) (i : Nat) (r : _RCReaderObject)
    (T D ps1 ps2 : Nat)
    (hi : i < TOTAL_NUM_OF_PC_INTERRUPTS)
    (hocc : ∀ j, j < i → slot reg j ≠ none)
    (hslot : slot reg i = some r)
    (hlow : r.lastState = false)
    (hps1 : currentPinState mask r.attatchedPin ps1 = true)
    (hps2 : currentPinState mask r.attatchedPin ps2 = false)
    (hD1 : 1 ≤ D) (hD2 : D < 65536) (hT : T + D ≤ UINT32_MAX) :
    slot (_calculateRCReaderCurrentValue mask r.assignedISR ps2 (T + D)
        (_calculateRCReaderCurrentValue mask r.assignedISR ps1 T reg)) i =
      some { r with lastMicros := T, currentValue := D, lastState := false } := by
  have hocc1 : ∀ j, j < i →
      slot (_calculateRCReaderCurrentValue mask r.assignedISR ps1 T reg) j ≠ none := by
    intro j hj
    rw [calculate_slot mask _ ps1 T reg j (by omega) (fun l hl => hocc l (by omega))]
    cases hs : slot reg j with
    | none => exact absurd hs (hocc j hj)
    | some x => simp
  rw [calculate_slot mask _ ps2 (T + D) _ i hi hocc1,
    calculate_slot mask _ ps1 T reg i hi hocc, hslot]
  have h1 : visitReader mask r.assignedISR ps1 T r =
      { r with lastMicros := T, lastState := true } := by
    unfold visitReader
    rw [if_pos rfl, updateReader_rising mask ps1 T r hlow hps1]
  have hd : (T + D - T) % UINT16_MOD = D := by
    have hsub : T + D - T = D := by omega
    rw [hsub]
    exact Nat.mod_eq_of_lt hD2
  have h2 : visitReader mask r.assignedISR ps2 (T + D)
      { r with lastMicros := T, lastState := true } =
      { r with lastMicros := T, currentValue := D, lastState := false } := by
    have hf := updateReader_falling mask ps2 (T + D)
      { r with lastMicros := T, lastState := true } rfl hps2 (show T < T + D by omega) hT
    unfold visitReader
    rw [if_pos rfl, hf]
    simp only [hd]
  simp only [Option.map_some', h1, h2]

/-- Witness of C5, amended: the reader of pin 53 in slot 0, a rising edge at clock value 1000
and a falling edge 1500 later. -/
theorem round_trip_witness :
    slot (_calculateRCReaderCurrentValue megaBitMask _ISR_Mappings.PCINT0_ISR 0 (1000 + 1500)
        (_calculateRCReaderCurrentValue megaBitMask _ISR_Mappings.PCINT0_ISR 1 1000
          (oneReader 0))) 0 =
      some { attatchedPin := 53, lastState := false, lastMicros := 1000, currentValue := 1500,
             assignedISR := _ISR_Mappings.PCINT0_ISR } :=
  round_trip megaBitMask (oneReader 0) 0
    { attatchedPin := 53, lastState := false, lastMicros := 0, currentValue := 0,
      assignedISR := _ISR_Mappings.PCINT0_ISR }
    1000 1500 1 0 (by decide) (by decide) (by decide) (by decide) (by decide) (by decide)
    (by decide) (by decide) (by decide)

/-- C6 on the code: for the reader of pin 53 in slot 0, a pulse of 1500 whose rising edge is
sampled at `2^32 - 100` and whose falling edge is sampled after the wrap, at 1400, leaves the
measured value 1499; the same pulse from 1000 to 2500 leaves 1500. -/
theorem wraparound_off_by_one :
    (4294967196 + 1500) % UINT32_MOD = 1400 ∧
    (slot (_calculateRCReaderCurrentValue megaBitMask _ISR_Mappings.PCINT0_ISR 0 1400
        (_calculateRCReaderCurrentValue megaBitMask _ISR_Mappings.PCINT0_ISR 1 4294967196
          (oneReader 0))) 0).map (fun r => r.currentValue) = some 1499 ∧
    (slot (_calculateRCReaderCurrentValue megaBitMask _ISR_Mappings.PCINT0_ISR 0 (1000 + 1500)
        (_calculateRCReaderCurrentValue megaBitMask _ISR_Mappings.PCINT0_ISR 1 1000
          (oneReader 0))) 0).map (fun r => r.currentValue) = some 1500 := by
  decide

end Calculator

section Reads

/-- C1. An object whose index is that of an occupied slot, read outside the timeout branch:
when the range is `(0, 0)` or the measured value lies in it, the detailed read writes the
measured value, stores it as last valid value and returns `RCR_OK`; otherwise it returns
`RCR_InvalidValue`, keeps the last valid value, and writes the last valid value when holding
is configured and the measured value when it is not. -/
theorem getMicroseconds_range_check (reg : Registry) (micros : Nat) (self : RCReader)
    (Value : Nat) (r : _RCReaderObject)
    (hidx : self._RCReaderIndexNum < TOTAL_NUM_OF_PC_INTERRUPTS)
    (hslot : slot reg self._RCReaderIndexNum = some r)
    (hlive : ¬ (passedTime r.lastMicros micros / 1000 > self._timeout ∧ self._timeout ≠ 0)) :
    RCReader.getMicroseconds reg micros self Value =
      some (if (self._validMinimum = 0 ∧ self._validMaximum = 0) ∨
              (self._validMinimum ≤ r.currentValue ∧ r.currentValue ≤ self._validMaximum) then
          { status := RCRStatus.RCR_OK, Value := r.currentValue,
            self := { self with _lastValidValue := r.currentValue } }
        else
          { status := RCRStatus.RCR_InvalidValue,
            Value := if self._holdLastValidValue = true then self._lastValidValue
                     else r.currentValue,
            self := self }) := by
  have hne : self._RCReaderIndexNum ≠ TOTAL_NUM_OF_PC_INTERRUPTS + 1 := by omega
  unfold RCReader.getMicroseconds
  rw [if_neg hne, if_pos hidx, hslot]
  simp only [if_neg hlive]
  by_cases hz : self._validMinimum = 0 ∧ self._validMaximum = 0
  · simp [hz]
  · by_cases hr : self._validMinimum ≤ r.currentValue ∧ r.currentValue ≤ self._validMaximum
    · simp [hr]
    · have h1 : ¬ ((r.currentValue ≥ self._validMinimum ∧
          r.currentValue ≤ self._validMaximum) ∨
          (self._validMinimum = 0 ∧ self._validMaximum = 0)) := by
        intro h
        rcases h with h | h
        · exact hr h
        · exact hz h
      have h2 : ¬ ((self._validMinimum = 0 ∧ self._validMaximum = 0) ∨
          (self._validMinimum ≤ r.currentValue ∧ r.currentValue ≤ self._validMaximum)) := by
        intro h
        rcases h with h | h
        · exact hz h
        · exact hr h
      rw [if_neg h1, if_neg h2]
      cases hh : self._holdLastValidValue <;> simp

/-- Witness of C1: a reader with range 1000..2000, holding, last valid value 1500, whose slot
holds a measured 2600, read with no timeout configured. -/
theorem getMicroseconds_range_check_witness :
    RCReader.getMicroseconds
        [some { attatchedPin := 53, lastState := false, lastMicros := 0, currentValue := 2600,
                assignedISR := _ISR_Mappings.PCINT0_ISR }]
        5000
        { _validMinimum := 1000, _validMaximum := 2000, _lastValidValue := 1500, _timeout := 0,
          _holdLastValidValue := true, _RCReaderIndexNum := 0 } 7 =
      some { status := RCRStatus.RCR_InvalidValue, Value := 1500,
             self := { _validMinimum := 1000, _validMaximum := 2000, _lastValidValue := 1500,
                       _timeout := 0, _holdLastValidValue := true, _RCReaderIndexNum := 0 } } :=
  getMicroseconds_range_check
    [some { attatchedPin := 53, lastState := false, lastMicros := 0, currentValue := 2600,
            assignedISR := _ISR_Mappings.PCINT0_ISR }]
    5000
    { _validMinimum := 1000, _validMaximum := 2000, _lastValidValue := 1500, _timeout := 0,
      _holdLastValidValue := true, _RCReaderIndexNum := 0 } 7
    { attatchedPin := 53, lastState := false, lastMicros := 0, currentValue := 2600,
      assignedISR := _ISR_Mappings.PCINT0_ISR }
    (by decide) (by decide) (by decide)

/-- Within the range of a `uint32_t` the local `passedTime` is computed without wrapping: it
is `(UINT32_MAX - lastMicros) + micros` when `lastMicros > micros` and `micros - lastMicros`
otherwise. -/
theorem passedTime_eq (lastMicros micros : Nat) (h1 : lastMicros ≤ UINT32_MAX)
    (h2 : micros ≤ UINT32_MAX) :
    passedTime lastMicros micros =
      if lastMicros > micros then (UINT32_MAX - lastMicros) + micros
      else micros - lastMicros := by
  unfold passedTime
  unfold UINT32_MAX at *
  unfold UINT32_MOD
  split
  · apply Nat.mod_eq_of_lt
    omega
  · apply Nat.mod_eq_of_lt
    omega

/-- C2. An object whose index is that of an occupied slot, at any 32-bit clock value: the
detailed read returns a result, and the status is `RCR_Timeout` exactly when the timeout is
not 0 and the elapsed time since `lastMicros` (`(UINT32_MAX - lastMicros) + micros` when
`lastMicros > micros`, `micros - lastMicros` otherwise), divided by 1000, exceeds it. In that
case the measured value is written and the object is unchanged, whatever the range and the
hold flag. With timeout 0 the status is never `RCR_Timeout`. -/
theorem getMicroseconds_timeout_iff (reg : Registry) (micros : Nat) (self : RCReader)
    (Value : Nat) (r : _RCReaderObject)
    (hidx : self._RCReaderIndexNum < TOTAL_NUM_OF_PC_INTERRUPTS)
    (hslot : slot reg self._RCReaderIndexNum = some r)
    (hlast : r.lastMicros ≤ UINT32_MAX) (hnow : micros ≤ UINT32_MAX) :
    ∃ out, RCReader.getMicroseconds reg micros self Value = some out ∧
      (out.status = RCRStatus.RCR_Timeout ↔
        (self._timeout ≠ 0 ∧
          (if r.lastMicros > micros then (UINT32_MAX - r.lastMicros) + micros
           else micros - r.lastMicros) / 1000 > self._timeout)) ∧
      (out.status = RCRStatus.RCR_Timeout → out.Value = r.currentValue ∧ out.self = self) ∧
      (self._timeout = 0 → out.status ≠ RCRStatus.RCR_Timeout) := by
  have hne : self._RCReaderIndexNum ≠ TOTAL_NUM_OF_PC_INTERRUPTS + 1 := by omega
  rw [← passedTime_eq r.lastMicros micros hlast hnow]
  unfold RCReader.getMicroseconds
  rw [if_neg hne, if_pos hidx, hslot]
  simp only []
  by_cases ht : passedTime r.lastMicros micros / 1000 > self._timeout ∧ self._timeout ≠ 0
  · rw [if_pos ht]
    refine ⟨_, rfl, ?_, ?_, ?_⟩
    · simp only [true_iff]
      exact ⟨ht.2, ht.1⟩
    · intro _
      exact ⟨rfl, rfl⟩
    · intro h0
      exact absurd h0 ht.2
  · rw [if_neg ht]
    have hnt : ¬ (self._timeout ≠ 0 ∧ passedTime r.lastMicros micros / 1000 > self._timeout) :=
      fun h => ht ⟨h.2, h.1⟩
    split
    · refine ⟨_, rfl, ?_, ?_, ?_⟩
      · simp only [false_iff, reduceCtorEq]
        exact hnt
      · intro h
        cases h
      · intro _ h
        cases h
    · split
      · refine ⟨_, rfl, ?_, ?_, ?_⟩
        · simp only [false_iff, reduceCtorEq]
          exact hnt
        · intro h
          cases h
        · intro _ h
          cases h
      · refine ⟨_, rfl, ?_, ?_, ?_⟩
        · simp only [false_iff, reduceCtorEq]
          exact hnt
        · intro h
          cases h
        · intro _ h
          cases h

/-- Witness of C2: a reader with timeout 100 ms whose last rising edge was stamped 5000,
read after the counter has wrapped to 3000. -/
theorem getMicroseconds_timeout_iff_witness :
    ∃ out, RCReader.getMicroseconds
        [some { attatchedPin := 53, lastState := false, lastMicros := 5000, currentValue := 2600,
                assignedISR := _ISR_Mappings.PCINT0_ISR }]
        3000
        { _validMinimum := 1000, _validMaximum := 2000, _lastValidValue := 1500,
          _timeout := 100, _holdLastValidValue := true, _RCReaderIndexNum := 0 } 7 = some out ∧
      (out.status = RCRStatus.RCR_Timeout ↔
        ((100 : Nat) ≠ 0 ∧
          (if (5000 : Nat) > 3000 then (UINT32_MAX - 5000) + 3000 else 3000 - 5000) / 1000
            > 100)) ∧
      (out.status = RCRStatus.RCR_Timeout → out.Value = 2600 ∧
        out.self = { _validMinimum := 1000, _validMaximum := 2000, _lastValidValue := 1500,
                     _timeout := 100, _holdLastValidValue := true, _RCReaderIndexNum := 0 }) ∧
      ((100 : Nat) = 0 → out.status ≠ RCRStatus.RCR_Timeout) :=
  getMicroseconds_timeout_iff
    [some { attatchedPin := 53, lastState := false, lastMicros := 5000, currentValue := 2600,
            assignedISR := _ISR_Mappings.PCINT0_ISR }]
    3000
    { _validMinimum := 1000, _validMaximum := 2000, _lastValidValue := 1500, _timeout := 100,
      _holdLastValidValue := true, _RCReaderIndexNum := 0 } 7
    { attatchedPin := 53, lastState := false, lastMicros := 5000, currentValue := 2600,
      assignedISR := _ISR_Mappings.PCINT0_ISR }
    (by decide) (by decide) (by decide) (by decide)

/-- The conversion to `int` keeps a value below 32768. -/
theorem toInt16_of_lt (v : Nat) (h : v < 32768) : toInt16 v = (v : Int) := by
  unfold toInt16 UINT16_MOD
  have hm : v % 65536 = v := Nat.mod_eq_of_lt (by omega)
  rw [hm, if_pos h]

/-- C3 on the code: a reader without range check whose slot holds a measured 40000 is read
with status `RCR_OK` and written value 40000, and the simplified read returns -25536, not
the value written. -/
theorem getMicrosecondsSimplified_large_value :
    RCReader.getMicroseconds
        [some { attatchedPin := 53, lastState := false, lastMicros := 0, currentValue := 40000,
                assignedISR := _ISR_Mappings.PCINT0_ISR }]
        5000 zeroed 7 =
      some { status := RCRStatus.RCR_OK, Value := 40000,
             self := { zeroed with _lastValidValue := 40000 } } ∧
    RCReader.getMicrosecondsSimplified
        [some { attatchedPin := 53, lastState := false, lastMicros := 0, currentValue := 40000,
                assignedISR := _ISR_Mappings.PCINT0_ISR }]
        5000 zeroed 7 =
      some (-25536, { zeroed with _lastValidValue := 40000 }) := by
  decide

/-- The simplified read on values that fit its return type. An object whose index is that of
an occupied slot: the detailed read returns a result; when its status is `RCR_OK` or holding is configured, and the value it wrote is
below 32768, the simplified read returns that value; when the status is not `RCR_OK` and
holding is not configured, the status is `RCR_InvalidValue` or `RCR_Timeout` and the
simplified read returns -1. -/
theorem getMicrosecondsSimplified_spec (reg : Registry) (micros : Nat) (self : RCReader)
    (value : Nat) (r : _RCReaderObject)
    (hidx : self._RCReaderIndexNum < TOTAL_NUM_OF_PC_INTERRUPTS)
    (hslot : slot reg self._RCReaderIndexNum = some r) :
    ∃ out, RCReader.getMicroseconds reg micros self value = some out ∧
      ((out.status = RCRStatus.RCR_OK ∨ self._holdLastValidValue = true) →
        out.Value < 32768 →
        RCReader.getMicrosecondsSimplified reg micros self value =
          some ((out.Value : Int), out.self)) ∧
      (¬ (out.status = RCRStatus.RCR_OK ∨ self._holdLastValidValue = true) →
        (out.status = RCRStatus.RCR_InvalidValue ∨ out.status = RCRStatus.RCR_Timeout) ∧
        RCReader.getMicrosecondsSimplified reg micros self value = some (-1, out.self)) := by
  have hne : self._RCReaderIndexNum ≠ TOTAL_NUM_OF_PC_INTERRUPTS + 1 := by omega
  have key : ∃ out, RCReader.getMicroseconds reg micros self value = some out ∧
      out.self._holdLastValidValue = self._holdLastValidValue ∧
      (out.status = RCRStatus.RCR_OK ∨ out.status = RCRStatus.RCR_InvalidValue ∨
        out.status = RCRStatus.RCR_Timeout) := by
    unfold RCReader.getMicroseconds
    rw [if_neg hne, if_pos hidx, hslot]
    simp only []
    split
    · exact ⟨_, rfl, rfl, Or.inr (Or.inr rfl)⟩
    · split
      · exact ⟨_, rfl, rfl, Or.inl rfl⟩
      · split
        · exact ⟨_, rfl, rfl, Or.inr (Or.inl rfl)⟩
        · exact ⟨_, rfl, rfl, Or.inr (Or.inl rfl)⟩
  obtain ⟨out, hout, hhold, hst⟩ := key
  refine ⟨out, hout, ?_, ?_⟩
  · intro hc hv
    unfold RCReader.getMicrosecondsSimplified
    rw [hout]
    simp only [hhold]
    rw [if_pos hc, toInt16_of_lt _ hv]
  · intro hc
    constructor
    · rcases hst with h | h | h
      · exact absurd (Or.inl h) hc
      · exact Or.inl h
      · exact Or.inr h
    · unfold RCReader.getMicrosecondsSimplified
      rw [hout]
      simp only [hhold]
      rw [if_neg hc]

/-- An instance of `getMicrosecondsSimplified_spec`: a reader with range 1000..2000, not
holding, whose slot holds a measured 2600. -/
theorem getMicrosecondsSimplified_spec_witness :
    ∃ out, RCReader.getMicroseconds
        [some { attatchedPin := 53, lastState := false, lastMicros := 0, currentValue := 2600,
                assignedISR := _ISR_Mappings.PCINT0_ISR }]
        5000
        { _validMinimum := 1000, _validMaximum := 2000, _lastValidValue := 1500, _timeout := 0,
          _holdLastValidValue := false, _RCReaderIndexNum := 0 } 7 = some out ∧
      ((out.status = RCRStatus.RCR_OK ∨ false = true) →
        out.Value < 32768 →
        RCReader.getMicrosecondsSimplified
          [some { attatchedPin := 53, lastState := false, lastMicros := 0,
                  currentValue := 2600, assignedISR := _ISR_Mappings.PCINT0_ISR }]
          5000
          { _validMinimum := 1000, _validMaximum := 2000, _lastValidValue := 1500,
            _timeout := 0, _holdLastValidValue := false, _RCReaderIndexNum := 0 } 7 =
          some ((out.Value : Int), out.self)) ∧
      (¬ (out.status = RCRStatus.RCR_OK ∨ false = true) →
        (out.status = RCRStatus.RCR_InvalidValue ∨ out.status = RCRStatus.RCR_Timeout) ∧
        RCReader.getMicrosecondsSimplified
          [some { attatchedPin := 53, lastState := false, lastMicros := 0,
                  currentValue := 2600, assignedISR := _ISR_Mappings.PCINT0_ISR }]
          5000
          { _validMinimum := 1000, _validMaximum := 2000, _lastValidValue := 1500,
            _timeout := 0, _holdLastValidValue := false, _RCReaderIndexNum := 0 } 7 =
          some (-1, out.self)) :=
  getMicrosecondsSimplified_spec
    [some { attatchedPin := 53, lastState := false, lastMicros := 0, currentValue := 2600,
            assignedISR := _ISR_Mappings.PCINT0_ISR }]
    5000
    { _validMinimum := 1000, _validMaximum := 2000, _lastValidValue := 1500, _timeout := 0,
      _holdLastValidValue := false, _RCReaderIndexNum := 0 } 7
    { attatchedPin := 53, lastState := false, lastMicros := 0, currentValue := 2600,
      assignedISR := _ISR_Mappings.PCINT0_ISR }
    (by decide) (by decide)

/-- C4 on the code: a reader with range 1000..2000, holding, last valid value 1500 and
timeout 100 ms, whose slot holds a measured 2600 stamped at 0, read at clock value
200000000. The detailed read returns `RCR_Timeout` with the measured 2600, and the
simplified read returns 2600, not the last valid value 1500. -/
theorem getMicrosecondsSimplified_timeout_hold :
    RCReader.getMicroseconds
        [some { attatchedPin := 53, lastState := false, lastMicros := 0, currentValue := 2600,
                assignedISR := _ISR_Mappings.PCINT0_ISR }]
        200000000
        { _validMinimum := 1000, _validMaximum := 2000, _lastValidValue := 1500,
          _timeout := 100, _holdLastValidValue := true, _RCReaderIndexNum := 0 } 7 =
      some { status := RCRStatus.RCR_Timeout, Value := 2600,
             self := { _validMinimum := 1000, _validMaximum := 2000, _lastValidValue := 1500,
                       _timeout := 100, _holdLastValidValue := true, _RCReaderIndexNum := 0 } } ∧
    RCReader.getMicrosecondsSimplified
        [some { attatchedPin := 53, lastState := false, lastMicros := 0, currentValue := 2600,
                assignedISR := _ISR_Mappings.PCINT0_ISR }]
        200000000
        { _validMinimum := 1000, _validMaximum := 2000, _lastValidValue := 1500,
          _timeout := 100, _holdLastValidValue := true, _RCReaderIndexNum := 0 } 7 =
      some (2600,
            { _validMinimum := 1000, _validMaximum := 2000, _lastValidValue := 1500,
              _timeout := 100, _holdLastValidValue := true, _RCReaderIndexNum := 0 }) := by
  decide

end Reads

section FullTable

/-- The search loop of the constructor finds nothing when every slot from `i` on is
occupied. -/
theorem findFreeSlot_none (reg : Registry) (fuel i : Nat)
    (h : ∀ j, i ≤ j → j < TOTAL_NUM_OF_PC_INTERRUPTS → slot reg j ≠ none) :
    findFreeSlot reg fuel i = none := by
  induction fuel generalizing i with
  | zero => rfl
  | succ n ih =>
    unfold findFreeSlot
    split
    · next hi =>
      rw [if_neg (h i (Nat.le_refl i) hi)]
      exact ih (i + 1) (fun j hj hj2 => h j (by omega) hj2)
    · rfl

/-- Setter calls leave the index of an object as it is. -/
theorem runSetters_index (calls : List SetterCall) (self : RCReader) :
    (runSetters self calls)._RCReaderIndexNum = self._RCReaderIndexNum := by
  induction calls generalizing self with
  | nil => rfl
  | cons c cs ih =>
    have hstep : runSetters self (c :: cs) = runSetters (SetterCall.run self c) cs := rfl
    rw [hstep, ih]
    cases c <;> rfl

/-- C10. A constructor call on a table whose 18 slots are all occupied leaves the table as
it is, and the detailed read of the object it yields returns `RCR_InitFailed` and leaves
`*Value` and the object untouched, after any sequence of setter calls, on any later table
and at any clock value. -/
theorem new_on_full_table (reg : Registry) (micros : Nat) (PinToAttach : RCReaderPin)
    (timeoutInMilliseconds validMinimumValue validMaximumValue : Nat)
    (holdLastValueOnFailure : Bool) (mem : RCReader) (indeterminate : _ISR_Mappings)
    (hfull : ∀ i, i < TOTAL_NUM_OF_PC_INTERRUPTS → slot reg i ≠ none) :
    (RCReader.new reg micros PinToAttach timeoutInMilliseconds validMinimumValue
        validMaximumValue holdLastValueOnFailure mem indeterminate).2 = reg ∧
    ∀ (calls : List SetterCall) (later : Registry) (now Value : Nat),
      RCReader.getMicroseconds later now
          (runSetters (RCReader.new reg micros PinToAttach timeoutInMilliseconds
            validMinimumValue validMaximumValue holdLastValueOnFailure mem indeterminate).1
            calls) Value =
        some { status := RCRStatus.RCR_InitFailed, Value := Value,
               self := runSetters (RCReader.new reg micros PinToAttach timeoutInMilliseconds
                 validMinimumValue validMaximumValue holdLastValueOnFailure mem
                 indeterminate).1 calls } := by
  have hnone : findFreeSlot reg TOTAL_NUM_OF_PC_INTERRUPTS 0 = none :=
    findFreeSlot_none reg _ 0 (fun j _ hj => hfull j hj)
  have hnew : RCReader.new reg micros PinToAttach timeoutInMilliseconds validMinimumValue
      validMaximumValue holdLastValueOnFailure mem indeterminate =
      ({ mem with _RCReaderIndexNum := TOTAL_NUM_OF_PC_INTERRUPTS + 1 }, reg) := by
    unfold RCReader.new
    rw [hnone]
  rw [hnew]
  refine ⟨rfl, ?_⟩
  intro calls later now Value
  unfold RCReader.getMicroseconds
  rw [if_pos (runSetters_index calls _)]

/-- Witness of C10: a constructor call on the one pin left, on the table filled by eighteen
constructor calls. -/
theorem new_on_full_table_witness :
    (RCReader.new fullTable 900 RCReaderPin.RCR_PIN_A15 100 1000 2000 true zeroed
        _ISR_Mappings.PCINT0_ISR).2 = fullTable ∧
    ∀ (calls : List SetterCall) (later : Registry) (now Value : Nat),
      RCReader.getMicroseconds later now
          (runSetters (RCReader.new fullTable 900 RCReaderPin.RCR_PIN_A15 100 1000 2000 true
            zeroed _ISR_Mappings.PCINT0_ISR).1 calls) Value =
        some { status := RCRStatus.RCR_InitFailed, Value := Value,
               self := runSetters (RCReader.new fullTable 900 RCReaderPin.RCR_PIN_A15 100 1000
                 2000 true zeroed _ISR_Mappings.PCINT0_ISR).1 calls } :=
  new_on_full_table fullTable 900 RCReaderPin.RCR_PIN_A15 100 1000 2000 true zeroed
    _ISR_Mappings.PCINT0_ISR (by decide)

end FullTable

section Lifecycle

/-- C7 on the code: after three constructor calls the second object (index 1) names the slot
of its own record (pin 52) and its read at 5000000 times out. Once the first object is
destroyed, the second object still has index 1, which now names the record of pin 51 created
for the third object, and its read at 5000000 returns `RCR_OK`; the third object has index 2,
which names a free slot, so its read dereferences `NULL`; and a fourth object constructed
then gets index 2 as well. -/
theorem stale_index_after_destroy :
    (Sketch.start.run threeReaders).bind (fun s => s.recordOf 1) =
      some { attatchedPin := 52, lastState := false, lastMicros := 1000, currentValue := 0,
             assignedISR := _ISR_Mappings.PCINT0_ISR } ∧
    ((Sketch.start.run threeReaders).bind (fun s => s.read 1 5000000 7)).map
      (fun out => out.status) = some RCRStatus.RCR_Timeout ∧
    (Sketch.start.run (threeReaders ++ [Event.destroy 0])).map
      (fun s => s.live.map (fun h => h._RCReaderIndexNum)) = some [1, 2] ∧
    (Sketch.start.run (threeReaders ++ [Event.destroy 0])).bind (fun s => s.recordOf 0) =
      some { attatchedPin := 51, lastState := false, lastMicros := 5000000, currentValue := 0,
             assignedISR := _ISR_Mappings.PCINT0_ISR } ∧
    ((Sketch.start.run (threeReaders ++ [Event.destroy 0])).bind
      (fun s => s.read 0 5000000 7)).map (fun out => out.status) = some RCRStatus.RCR_OK ∧
    (Sketch.start.run (threeReaders ++ [Event.destroy 0])).bind (fun s => s.recordOf 1) =
      none ∧
    (Sketch.start.run (threeReaders ++ [Event.destroy 0])).bind
      (fun s => s.read 1 5000000 7) = none ∧
    (Sketch.start.run (threeReaders ++
        [Event.destroy 0, Event.construct (ctorOn RCReaderPin.RCR_PIN_50 6000000 0)])).map
      (fun s => s.live.map (fun h => h._RCReaderIndexNum)) = some [1, 2, 2] := by
  decide

/-- C8 on the code: after eighteen constructor calls on eighteen pins the table is full;
the destructor of the first object (index 0) then leaves slot 17 occupied: slots 16 and 17
both hold the record of pin 68 that slot 17 held before. -/
theorem destroy_on_full_table_keeps_last_slot :
    (Sketch.start.run fillEvents).map (fun s => s.table) = some fullTable ∧
    slot fullTable 16 =
      some { attatchedPin := 67, lastState := false, lastMicros := 0, currentValue := 0,
             assignedISR := _ISR_Mappings.PCINT2_ISR } ∧
    slot fullTable 17 =
      some { attatchedPin := 68, lastState := false, lastMicros := 0, currentValue := 0,
             assignedISR := _ISR_Mappings.PCINT2_ISR } ∧
    (Sketch.start.run (fillEvents ++ [Event.destroy 0])).map (fun s => slot s.table 16) =
      some (some { attatchedPin := 68, lastState := false, lastMicros := 0, currentValue := 0,
                   assignedISR := _ISR_Mappings.PCINT2_ISR }) ∧
    (Sketch.start.run (fillEvents ++ [Event.destroy 0])).map (fun s => slot s.table 17) =
      some (some { attatchedPin := 68, lastState := false, lastMicros := 0, currentValue := 0,
                   assignedISR := _ISR_Mappings.PCINT2_ISR }) := by
  decide

/-- A table whose occupied slots are those below some `n` is contiguous. -/
theorem contiguous_of_occupiedBelow (reg : Registry) (n : Nat) (h : OccupiedBelow reg n) :
    Contiguous reg := by
  intro j _ i hij hi
  by_contra hj
  have hjn : j < n := (h j).mp hj
  have hin : i < n := by omega
  exact (h i).mpr hin hi

/-- The search loop of the constructor, started at or below the first free slot `n` with
enough iterations left, ends at `n`. -/
theorem findFreeSlot_some (reg : Registry) (n fuel i : Nat) (hin : i ≤ n)
    (hn : n < TOTAL_NUM_OF_PC_INTERRUPTS) (hfuel : TOTAL_NUM_OF_PC_INTERRUPTS ≤ fuel + i)
    (hocc : ∀ j, i ≤ j → j < n → slot reg j ≠ none) (hfree : slot reg n = none) :
    findFreeSlot reg fuel i = some n := by
  induction fuel generalizing i with
  | zero => omega
  | succ m ih =>
    unfold findFreeSlot
    rw [if_pos (by omega : i < TOTAL_NUM_OF_PC_INTERRUPTS)]
    by_cases hi : i = n
    · subst hi
      rw [if_pos hfree]
    · rw [if_neg (hocc i (Nat.le_refl i) (by omega))]
      exact ih (i + 1) (by omega) (by omega) (fun j hj1 hj2 => hocc j (by omega) hj2)

/-- The constructor keeps the size of the table and keeps the occupied slots a run from
slot 0 on. -/
theorem new_occupiedBelow (reg : Registry) (c : CtorCall) (n : Nat)
    (hlen : reg.length = TOTAL_NUM_OF_PC_INTERRUPTS) (h : OccupiedBelow reg n) :
    (c.run reg).2.length = TOTAL_NUM_OF_PC_INTERRUPTS ∧ ∃ m, OccupiedBelow (c.run reg).2 m := by
  have hn18 : n ≤ TOTAL_NUM_OF_PC_INTERRUPTS := by
    by_contra hc
    have h17 : slot reg TOTAL_NUM_OF_PC_INTERRUPTS ≠ none :=
      (h TOTAL_NUM_OF_PC_INTERRUPTS).mpr (by omega)
    exact h17 (slot_of_length_le reg _ (by omega))
  unfold CtorCall.run RCReader.new
  by_cases hfull : n = TOTAL_NUM_OF_PC_INTERRUPTS
  · have hnone : findFreeSlot reg TOTAL_NUM_OF_PC_INTERRUPTS 0 = none :=
      findFreeSlot_none reg _ 0 (fun j _ hj => (h j).mpr (by omega))
    rw [hnone]
    exact ⟨hlen, n, h⟩
  · have hfree : slot reg n = none := by
      by_contra hc
      exact absurd ((h n).mp hc) (by omega)
    have hsome : findFreeSlot reg TOTAL_NUM_OF_PC_INTERRUPTS 0 = some n :=
      findFreeSlot_some reg n _ 0 (Nat.zero_le n) (by omega) (by omega)
        (fun j _ hj => (h j).mpr hj) hfree
    rw [hsome]
    refine ⟨by simp [hlen], n + 1, ?_⟩
    intro j
    by_cases hj : j = n
    · subst hj
      simp only []
      rw [slot_set_eq _ _ _ (by omega)]
      simp
    · simp only []
      rw [slot_set_ne _ _ _ _ (fun hc => hj hc.symm), h j]
      omega

/-- A run of occupied slots from slot 0 on cannot be longer than the table. -/
theorem occupiedBelow_le (reg : Registry) (n : Nat) (h : OccupiedBelow reg n) :
    n ≤ reg.length := by
  by_contra hc
  exact (h reg.length).mpr (by omega) (slot_of_length_le reg _ (Nat.le_refl _))

/-- State of the table when the shifting loop of the destructor is left at an index `i` at
or beyond the size of the table: with the occupied slots other than `i - 1` those below `n`,
and slot `i - 1` free or below `n`, the occupied slots are a run from slot 0 on. -/
theorem occupiedBelow_at_exit (reg : Registry) (n i : Nat)
    (hi : TOTAL_NUM_OF_PC_INTERRUPTS ≤ i)
    (hn : n ≤ TOTAL_NUM_OF_PC_INTERRUPTS)
    (hocc : ∀ j, j ≠ i - 1 → (slot reg j ≠ none ↔ j < n))
    (hgap : slot reg (i - 1) ≠ none → i - 1 < n) :
    ∃ m, OccupiedBelow reg m := by
  by_cases hlast : slot reg (i - 1) = none
  · by_cases hni : n ≤ i - 1
    · refine ⟨n, fun j => ?_⟩
      by_cases hj : j = i - 1
      · subst hj
        rw [hlast]
        simp only [ne_eq, not_true_eq_false, false_iff]
        omega
      · exact hocc j hj
    · refine ⟨i - 1, fun j => ?_⟩
      by_cases hj : j = i - 1
      · subst hj
        rw [hlast]
        simp
      · rw [hocc j hj]
        omega
  · refine ⟨n, fun j => ?_⟩
    by_cases hj : j = i - 1
    · subst hj
      exact ⟨fun _ => hgap hlast, fun _ => hlast⟩
    · exact hocc j hj

/-- The shifting loop of the destructor keeps the size of the table. -/
theorem shiftDown_length (fuel i : Nat) (reg : Registry) :
    (shiftDown fuel i reg).length = reg.length := by
  induction fuel generalizing i reg with
  | zero => rfl
  | succ k ih =>
    unfold shiftDown
    split
    · split
      · simp
      · rw [ih]
        simp
    · rfl

/-- The shifting loop of the destructor, entered at index `i` with the occupied slots other
than `i - 1` those below `n` and slot `i - 1` free or below `n`, leaves the occupied slots a
run from slot 0 on. -/
theorem shiftDown_occupiedBelow (fuel i : Nat) (reg : Registry) (n : Nat)
    (hlen : reg.length = TOTAL_NUM_OF_PC_INTERRUPTS) (hi : 1 ≤ i)
    (hfuel : TOTAL_NUM_OF_PC_INTERRUPTS ≤ fuel + i) (hn : n ≤ TOTAL_NUM_OF_PC_INTERRUPTS)
    (hocc : ∀ j, j ≠ i - 1 → (slot reg j ≠ none ↔ j < n))
    (hgap : slot reg (i - 1) ≠ none → i - 1 < n) :
    ∃ m, OccupiedBelow (shiftDown fuel i reg) m := by
  induction fuel generalizing i reg with
  | zero => exact occupiedBelow_at_exit reg n i (by omega) hn hocc hgap
  | succ k ih =>
    unfold shiftDown
    by_cases hi18 : i < TOTAL_NUM_OF_PC_INTERRUPTS
    · rw [if_pos hi18]
      cases hs : slot reg i with
      | none =>
        simp only []
        have hin : n ≤ i := by
          by_contra hc
          exact (hocc i (by omega)).mpr (by omega) hs
        by_cases hni : n ≤ i - 1
        · refine ⟨n, fun j => ?_⟩
          by_cases hj : j = i - 1
          · subst hj
            rw [slot_set_eq _ _ _ (by omega)]
            simp only [ne_eq, not_true_eq_false, false_iff]
            omega
          · rw [slot_set_ne _ _ _ _ (fun hc => hj hc.symm)]
            exact hocc j hj
        · refine ⟨i - 1, fun j => ?_⟩
          by_cases hj : j = i - 1
          · subst hj
            rw [slot_set_eq _ _ _ (by omega)]
            simp
          · rw [slot_set_ne _ _ _ _ (fun hc => hj hc.symm), hocc j hj]
            omega
      | some r =>
        simp only []
        have hin : i < n := (hocc i (by omega)).mp (by rw [hs]; simp)
        apply ih (i + 1) _ (by simp [hlen]) (by omega) (by omega)
        · intro j hj
          by_cases hj2 : j = i - 1
          · subst hj2
            rw [slot_set_eq _ _ _ (by omega)]
            simp only [ne_eq, reduceCtorEq, not_false_eq_true, true_iff]
            omega
          · rw [slot_set_ne _ _ _ _ (fun hc => hj2 hc.symm)]
            exact hocc j hj2
        · intro _
          simpa using hin
    · rw [if_neg hi18]
      exact occupiedBelow_at_exit reg n i (by omega) hn hocc hgap

/-- The destructor of an object with an index inside the table returns a table of the same
size whose occupied slots are a run from slot 0 on, when they were before. -/
theorem delete_occupiedBelow (reg : Registry) (self : RCReader) (n : Nat)
    (hlen : reg.length = TOTAL_NUM_OF_PC_INTERRUPTS) (h : OccupiedBelow reg n)
    (hidx : self._RCReaderIndexNum < TOTAL_NUM_OF_PC_INTERRUPTS) :
    ∃ reg', RCReader.delete reg self = some reg' ∧
      reg'.length = TOTAL_NUM_OF_PC_INTERRUPTS ∧ ∃ m, OccupiedBelow reg' m := by
  have hn : n ≤ TOTAL_NUM_OF_PC_INTERRUPTS := hlen ▸ occupiedBelow_le reg n h
  have hmod : (self._RCReaderIndexNum + 1) % 256 = self._RCReaderIndexNum + 1 := by
    apply Nat.mod_eq_of_lt
    unfold TOTAL_NUM_OF_PC_INTERRUPTS at hidx
    omega
  unfold RCReader.delete
  rw [if_pos hidx, hmod]
  refine ⟨_, rfl, ?_, ?_⟩
  · rw [shiftDown_length]
    simp [hlen]
  · apply shiftDown_occupiedBelow _ _ _ n (by simp [hlen]) (by omega) (by omega) hn
    · intro j hj
      rw [slot_set_ne _ _ _ _ (fun hc => hj (by omega))]
      exact h j
    · intro hc
      have hz : self._RCReaderIndexNum + 1 - 1 = self._RCReaderIndexNum := by omega
      rw [hz, slot_set_eq _ _ _ (by omega)] at hc
      exact absurd rfl hc

/-- What the shifting loop of the destructor leaves in each slot, when entered at index
`i` with the slots from `i` up to `n` occupied and slot `n`, if inside the table, free: the
slots from `i - 1` on take the contents of their successors, slot `n - 1` is cleared unless
`n` is the size of the table, and every other slot is as before. -/
theorem shiftDown_slot (fuel i : Nat) (reg : Registry) (n : Nat)
    (hlen : reg.length = TOTAL_NUM_OF_PC_INTERRUPTS) (hi : 1 ≤ i) (hin : i ≤ n)
    (hn : n ≤ TOTAL_NUM_OF_PC_INTERRUPTS) (hfuel : TOTAL_NUM_OF_PC_INTERRUPTS ≤ fuel + i)
    (hocc : ∀ j, i ≤ j → j < n → slot reg j ≠ none)
    (hfree : n < TOTAL_NUM_OF_PC_INTERRUPTS → slot reg n = none) (j : Nat) :
    slot (shiftDown fuel i reg) j =
      if j < i - 1 then slot reg j
      else if j < n - 1 then slot reg (j + 1)
      else if n < TOTAL_NUM_OF_PC_INTERRUPTS ∧ j = n - 1 then none
      else slot reg j := by
  induction fuel generalizing i reg with
  | zero =>
    unfold shiftDown
    by_cases hj : j < i - 1
    · rw [if_pos hj]
    · rw [if_neg hj, if_neg (by omega), if_neg (by omega)]
  | succ k ih =>
    unfold shiftDown
    by_cases hi18 : i < TOTAL_NUM_OF_PC_INTERRUPTS
    · rw [if_pos hi18]
      cases hs : slot reg i with
      | none =>
        simp only []
        have hieq : i = n := by
          by_contra hne
          exact hocc i (Nat.le_refl i) (by omega) hs
        subst hieq
        by_cases hj : j = i - 1
        · subst hj
          rw [slot_set_eq _ _ _ (by omega), if_neg (by omega), if_neg (by omega),
            if_pos ⟨hi18, rfl⟩]
        · rw [slot_set_ne _ _ _ _ (fun hc => hj hc.symm)]
          by_cases hj2 : j < i - 1
          · rw [if_pos hj2]
          · rw [if_neg hj2, if_neg hj2, if_neg (fun hc => hj hc.2)]
      | some r =>
        simp only []
        have hlt : i < n := by
          by_contra hc
          have hieq : i = n := by omega
          rw [hieq, hfree (by omega)] at hs
          cases hs
        have hstep := ih (i + 1) (reg.set (i - 1) (some r)) (by simp [hlen]) (by omega)
          (by omega) (by omega)
          (fun l hl1 hl2 => by
            rw [slot_set_ne _ _ _ _ (by omega)]
            exact hocc l (by omega) hl2)
          (fun hc => by
            rw [slot_set_ne _ _ _ _ (by omega)]
            exact hfree hc)
        rw [hstep]
        have hsucc : i + 1 - 1 = i := by omega
        rw [hsucc]
        by_cases hj : j < i - 1
        · rw [if_pos (by omega), if_pos hj, slot_set_ne _ _ _ _ (by omega)]
        · by_cases hj2 : j = i - 1
          · subst hj2
            have hback : i - 1 + 1 = i := by omega
            rw [if_pos (by omega), if_neg hj, if_pos (by omega), slot_set_eq _ _ _ (by omega),
              hback, hs]
          · rw [if_neg (by omega), if_neg hj, slot_set_ne _ _ _ _ (by omega),
              slot_set_ne _ _ _ _ (fun hc => hj2 hc.symm)]
    · rw [if_neg hi18]
      by_cases hj : j < i - 1
      · rw [if_pos hj]
      · rw [if_neg hj, if_neg (by omega), if_neg (by omega)]

/-- The destructor on a table whose occupied slots are those below `n`, for the object of an
occupied slot, when the table is not full or the object is that of the last slot: the
records of the other `n - 1` slots end up in slots `0 .. n - 2` in their order and every
slot from `n - 1` on is free. -/
theorem delete_compacts (reg : Registry) (self : RCReader) (n : Nat)
    (hlen : reg.length = TOTAL_NUM_OF_PC_INTERRUPTS) (h : OccupiedBelow reg n)
    (hk : self._RCReaderIndexNum < n)
    (hcase : n < TOTAL_NUM_OF_PC_INTERRUPTS ∨
      self._RCReaderIndexNum = TOTAL_NUM_OF_PC_INTERRUPTS - 1) :
    ∃ reg', RCReader.delete reg self = some reg' ∧
      ∀ j, slot reg' j =
        if j < self._RCReaderIndexNum then slot reg j
        else if j < n - 1 then slot reg (j + 1)
        else none := by
  have hn : n ≤ TOTAL_NUM_OF_PC_INTERRUPTS := hlen ▸ occupiedBelow_le reg n h
  have hidx : self._RCReaderIndexNum < TOTAL_NUM_OF_PC_INTERRUPTS := by omega
  have hmod : (self._RCReaderIndexNum + 1) % 256 = self._RCReaderIndexNum + 1 := by
    apply Nat.mod_eq_of_lt
    unfold TOTAL_NUM_OF_PC_INTERRUPTS at hidx
    omega
  have hfreeAt : ∀ l, n ≤ l → slot reg l = none := by
    intro l hl
    by_contra hc
    exact absurd ((h l).mp hc) (by omega)
  unfold RCReader.delete
  rw [if_pos hidx, hmod]
  refine ⟨_, rfl, fun j => ?_⟩
  rw [shiftDown_slot _ _ _ n (by simp [hlen]) (by omega) (by omega) hn (by omega)
    (fun l hl1 hl2 => by
      rw [slot_set_ne _ _ _ _ (by omega)]
      exact (h l).mpr hl2)
    (fun hc => by
      rw [slot_set_ne _ _ _ _ (by omega)]
      exact hfreeAt n (Nat.le_refl n))]
  have hsucc : self._RCReaderIndexNum + 1 - 1 = self._RCReaderIndexNum := by omega
  rw [hsucc]
  by_cases hj : j < self._RCReaderIndexNum
  · rw [if_pos hj, if_pos hj, slot_set_ne _ _ _ _ (by omega)]
  · rw [if_neg hj, if_neg hj]
    by_cases hj2 : j < n - 1
    · rw [if_pos hj2, if_pos hj2, slot_set_ne _ _ _ _ (by omega)]
    · rw [if_neg hj2, if_neg hj2]
      split
      · rfl
      · next hc =>
        by_cases hj3 : j = self._RCReaderIndexNum
        · subst hj3
          rw [slot_set_eq _ _ _ (by omega)]
        · rw [slot_set_ne _ _ _ _ (fun hc2 => hj3 hc2.symm)]
          apply hfreeAt
          unfold TOTAL_NUM_OF_PC_INTERRUPTS at *
          omega

/-- One event keeps the size of the table and keeps the occupied slots a run from slot 0
on. -/
theorem step_occupiedBelow (s t : Sketch) (e : Event)
    (hlen : s.table.length = TOTAL_NUM_OF_PC_INTERRUPTS) (h : ∃ n, OccupiedBelow s.table n)
    (hstep : s.step e = some t) :
    t.table.length = TOTAL_NUM_OF_PC_INTERRUPTS ∧ ∃ m, OccupiedBelow t.table m := by
  obtain ⟨n, hn⟩ := h
  cases e with
  | construct c =>
    simp only [Sketch.step, Option.some.injEq] at hstep
    subst hstep
    exact new_occupiedBelow s.table c n hlen hn
  | destroy k =>
    simp only [Sketch.step] at hstep
    cases hk : s.live[k]? with
    | none => simp [hk] at hstep
    | some hdl =>
      simp only [hk] at hstep
      cases hd : RCReader.delete s.table hdl with
      | none => simp [hd] at hstep
      | some reg =>
        simp only [hd, Option.some.injEq] at hstep
        subst hstep
        have hidx : hdl._RCReaderIndexNum < TOTAL_NUM_OF_PC_INTERRUPTS := by
          by_contra hc
          unfold RCReader.delete at hd
          rw [if_neg hc] at hd
          cases hd
        obtain ⟨reg', hreg', hl, hm⟩ := delete_occupiedBelow s.table hdl n hlen hn hidx
        rw [hd] at hreg'
        cases hreg'
        exact ⟨hl, hm⟩

/-- A sequence of events keeps the size of the table and keeps the occupied slots a run from
slot 0 on. -/
theorem run_occupiedBelow (events : List Event) (s t : Sketch)
    (hlen : s.table.length = TOTAL_NUM_OF_PC_INTERRUPTS) (h : ∃ n, OccupiedBelow s.table n)
    (hrun : s.run events = some t) :
    t.table.length = TOTAL_NUM_OF_PC_INTERRUPTS ∧ ∃ m, OccupiedBelow t.table m := by
  induction events generalizing s with
  | nil =>
    simp only [Sketch.run, Option.some.injEq] at hrun
    subst hrun
    exact ⟨hlen, h⟩
  | cons e es ih =>
    simp only [Sketch.run] at hrun
    cases hs : s.step e with
    | none => simp [hs] at hrun
    | some u =>
      simp only [hs] at hrun
      obtain ⟨hl, hm⟩ := step_occupiedBelow s u e hlen h hs
      exact ih u hl hm hrun

/-- The pattern of `NULL` slots: from the empty table, after any sequence of constructor
calls and of destructions of objects with an index inside the table, no slot that is not
`NULL` follows a `NULL` slot. The table of this statement does not tell a pointer to a
deleted record from a pointer to a live one; `HeapSketch` does. -/
theorem contiguous_reachable (events : List Event) (s : Sketch)
    (hrun : Sketch.start.run events = some s) : Contiguous s.table := by
  have hstart : ∃ n, OccupiedBelow Sketch.start.table n := by
    refine ⟨0, fun j => ?_⟩
    have hfree : slot Sketch.start.table j = none := by
      unfold Sketch.start _AllRCReaders slot
      rw [List.getD_eq_getElem?_getD]
      by_cases hj : j < TOTAL_NUM_OF_PC_INTERRUPTS
      · simp [List.getElem?_replicate, hj]
      · simp [List.getElem?_replicate, hj]
    rw [hfree]
    simp
  obtain ⟨_, n, hn⟩ := run_occupiedBelow events Sketch.start s (by simp [Sketch.start, _AllRCReaders])
    hstart hrun
  exact contiguous_of_occupiedBelow s.table n hn

/-- An instance of `contiguous_reachable`: the events of `churn`. -/
theorem contiguous_reachable_witness :
    Sketch.start.run churn = some churnResult ∧ Contiguous churnResult.table :=
  ⟨by decide, contiguous_reachable churn churnResult (by decide)⟩

end Lifecycle

section Construction

/-- A table with a free slot has a lowest free slot, and the search loop of the constructor
ends there. -/
theorem findFreeSlot_lowest (reg : Registry)
    (hfree : ∃ i, i < TOTAL_NUM_OF_PC_INTERRUPTS ∧ slot reg i = none) :
    ∃ n, n < TOTAL_NUM_OF_PC_INTERRUPTS ∧ slot reg n = none ∧
      (∀ j, j < n → slot reg j ≠ none) ∧
      findFreeSlot reg TOTAL_NUM_OF_PC_INTERRUPTS 0 = some n := by
  have hspec := Nat.find_spec hfree
  have hmin : ∀ j, j < Nat.find hfree → slot reg j ≠ none := by
    intro j hj hc
    exact Nat.find_min hfree hj ⟨by omega, hc⟩
  exact ⟨Nat.find hfree, hspec.1, hspec.2, hmin,
    findFreeSlot_some reg _ _ 0 (Nat.zero_le _) hspec.1 (by omega)
      (fun j _ hj => hmin j hj) hspec.2⟩

/-- The constructor, once its search loop has ended at slot `n`, yields the object with
index `n` and the given configuration, and the table with the fresh record in slot `n`. -/
theorem new_of_findFreeSlot (reg : Registry) (micros : Nat) (PinToAttach : RCReaderPin)
    (timeoutInMilliseconds validMinimumValue validMaximumValue : Nat)
    (holdLastValueOnFailure : Bool) (mem : RCReader) (indeterminate : _ISR_Mappings) (n : Nat)
    (hfind : findFreeSlot reg TOTAL_NUM_OF_PC_INTERRUPTS 0 = some n) :
    RCReader.new reg micros PinToAttach timeoutInMilliseconds validMinimumValue
        validMaximumValue holdLastValueOnFailure mem indeterminate =
      ({ mem with
          _RCReaderIndexNum := n
          _validMinimum := validMinimumValue
          _validMaximum := validMaximumValue
          _holdLastValidValue := holdLastValueOnFailure
          _timeout := timeoutInMilliseconds },
       reg.set n (some (freshRecord PinToAttach micros indeterminate))) := by
  unfold RCReader.new
  rw [hfind]
  rfl

/-- Every pin of `RCReaderPin` has a PCINT number in 0..23, and the constructor assigns the
interrupt routine of the group of eight the number lies in, whatever the local variable held
before. -/
theorem selectISR_of_pin (pin : RCReaderPin) (indeterminate : _ISR_Mappings) :
    (RCReader._PinToInterruptMap pin.toNat ≤ 7 ∧
      selectISR (RCReader._PinToInterruptMap pin.toNat) indeterminate =
        _ISR_Mappings.PCINT0_ISR) ∨
    (8 ≤ RCReader._PinToInterruptMap pin.toNat ∧ RCReader._PinToInterruptMap pin.toNat ≤ 15 ∧
      selectISR (RCReader._PinToInterruptMap pin.toNat) indeterminate =
        _ISR_Mappings.PCINT1_ISR) ∨
    (16 ≤ RCReader._PinToInterruptMap pin.toNat ∧ RCReader._PinToInterruptMap pin.toNat ≤ 23 ∧
      selectISR (RCReader._PinToInterruptMap pin.toNat) indeterminate =
        _ISR_Mappings.PCINT2_ISR) := by
  cases pin <;> simp [selectISR, RCReader._PinToInterruptMap, RCReaderPin.toNat, A8]

/-- C12. On a table of 18 slots with a free slot, for every pin: the constructor takes the
lowest free slot `n`, stores `n` as index of the object, puts into slot `n` the record with
the number of the pin, line low, `lastMicros` the clock value, measured value 0 and the
interrupt routine of the group of the PCINT number of the pin, and leaves every other slot as
it is. The PCINT number of each pin is that of the table in `RCReader.h` (pin 53 is PCINT0,
..., pin 13 is PCINT7, pin 0 is PCINT8, pin 15 is PCINT9, pin 14 is PCINT10, pin A8 is
PCINT16, ..., pin A15 is PCINT23); numbers 0..7 are served by `PCINT0_ISR`, 8..15 by
`PCINT1_ISR`, 16..23 by `PCINT2_ISR`. -/
theorem new_stores_record (reg : Registry) (micros : Nat) (PinToAttach : RCReaderPin)
    (timeoutInMilliseconds validMinimumValue validMaximumValue : Nat)
    (holdLastValueOnFailure : Bool) (mem : RCReader) (indeterminate : _ISR_Mappings)
    (hlen : reg.length = TOTAL_NUM_OF_PC_INTERRUPTS)
    (hfree : ∃ i, i < TOTAL_NUM_OF_PC_INTERRUPTS ∧ slot reg i = none) :
    ∃ n, n < TOTAL_NUM_OF_PC_INTERRUPTS ∧ slot reg n = none ∧
      (∀ j, j < n → slot reg j ≠ none) ∧
      (RCReader.new reg micros PinToAttach timeoutInMilliseconds validMinimumValue
        validMaximumValue holdLastValueOnFailure mem indeterminate).1._RCReaderIndexNum = n ∧
      slot (RCReader.new reg micros PinToAttach timeoutInMilliseconds validMinimumValue
          validMaximumValue holdLastValueOnFailure mem indeterminate).2 n =
        some
          { attatchedPin :=
              match PinToAttach with
              | .RCR_PIN_53 => 53 | .RCR_PIN_52 => 52 | .RCR_PIN_51 => 51 | .RCR_PIN_50 => 50
              | .RCR_PIN_10 => 10 | .RCR_PIN_11 => 11 | .RCR_PIN_12 => 12 | .RCR_PIN_13 => 13
              | .RCR_PIN_0 => 0 | .RCR_PIN_14 => 14 | .RCR_PIN_15 => 15
              | .RCR_PIN_A8 => 62 | .RCR_PIN_A9 => 63 | .RCR_PIN_A10 => 64
              | .RCR_PIN_A11 => 65 | .RCR_PIN_A12 => 66 | .RCR_PIN_A13 => 67
              | .RCR_PIN_A14 => 68 | .RCR_PIN_A15 => 69
            lastState := false
            lastMicros := micros
            currentValue := 0
            assignedISR :=
              match PinToAttach with
              | .RCR_PIN_53 | .RCR_PIN_52 | .RCR_PIN_51 | .RCR_PIN_50
              | .RCR_PIN_10 | .RCR_PIN_11 | .RCR_PIN_12 | .RCR_PIN_13 =>
                _ISR_Mappings.PCINT0_ISR
              | .RCR_PIN_0 | .RCR_PIN_14 | .RCR_PIN_15 => _ISR_Mappings.PCINT1_ISR
              | .RCR_PIN_A8 | .RCR_PIN_A9 | .RCR_PIN_A10 | .RCR_PIN_A11
              | .RCR_PIN_A12 | .RCR_PIN_A13 | .RCR_PIN_A14 | .RCR_PIN_A15 =>
                _ISR_Mappings.PCINT2_ISR } ∧
      RCReader._PinToInterruptMap PinToAttach.toNat =
        (match PinToAttach with
          | .RCR_PIN_53 => 0 | .RCR_PIN_52 => 1 | .RCR_PIN_51 => 2 | .RCR_PIN_50 => 3
          | .RCR_PIN_10 => 4 | .RCR_PIN_11 => 5 | .RCR_PIN_12 => 6 | .RCR_PIN_13 => 7
          | .RCR_PIN_0 => 8 | .RCR_PIN_15 => 9 | .RCR_PIN_14 => 10
          | .RCR_PIN_A8 => 16 | .RCR_PIN_A9 => 17 | .RCR_PIN_A10 => 18
          | .RCR_PIN_A11 => 19 | .RCR_PIN_A12 => 20 | .RCR_PIN_A13 => 21
          | .RCR_PIN_A14 => 22 | .RCR_PIN_A15 => 23) ∧
      (∀ j, j ≠ n →
        slot (RCReader.new reg micros PinToAttach timeoutInMilliseconds validMinimumValue
          validMaximumValue holdLastValueOnFailure mem indeterminate).2 j = slot reg j) := by
  obtain ⟨n, hn, hnone, hbelow, hfind⟩ := findFreeSlot_lowest reg hfree
  rw [new_of_findFreeSlot reg micros PinToAttach timeoutInMilliseconds validMinimumValue
    validMaximumValue holdLastValueOnFailure mem indeterminate n hfind]
  refine ⟨n, hn, hnone, hbelow, rfl, ?_, ?_, ?_⟩
  · simp only []
    rw [slot_set_eq _ _ _ (by omega)]
    cases PinToAttach <;>
      simp [freshRecord, selectISR, RCReader._PinToInterruptMap, RCReaderPin.toNat, A8]
  · cases PinToAttach <;> rfl
  · intro j hj
    simp only []
    exact slot_set_ne _ _ _ _ (fun hc => hj hc.symm)

/-- Witness of C12: a constructor call on pin 0 (PCINT8, served by `PCINT1_ISR`) at clock
value 1000 on the table whose slot 0 holds the reader of pin 53. -/
theorem new_stores_record_witness :
    ∃ n, n < TOTAL_NUM_OF_PC_INTERRUPTS ∧ slot (oneReader 0) n = none ∧
      (∀ j, j < n → slot (oneReader 0) j ≠ none) ∧
      (RCReader.new (oneReader 0) 1000 RCReaderPin.RCR_PIN_0 100 1000 2000 true zeroed
        _ISR_Mappings.PCINT0_ISR).1._RCReaderIndexNum = n ∧
      slot (RCReader.new (oneReader 0) 1000 RCReaderPin.RCR_PIN_0 100 1000 2000 true zeroed
          _ISR_Mappings.PCINT0_ISR).2 n =
        some { attatchedPin := 0, lastState := false, lastMicros := 1000, currentValue := 0,
               assignedISR := _ISR_Mappings.PCINT1_ISR } ∧
      RCReader._PinToInterruptMap RCReaderPin.RCR_PIN_0.toNat = 8 ∧
      (∀ j, j ≠ n →
        slot (RCReader.new (oneReader 0) 1000 RCReaderPin.RCR_PIN_0 100 1000 2000 true zeroed
          _ISR_Mappings.PCINT0_ISR).2 j = slot (oneReader 0) j) :=
  new_stores_record (oneReader 0) 1000 RCReaderPin.RCR_PIN_0 100 1000 2000 true zeroed
    _ISR_Mappings.PCINT0_ISR (by decide) ⟨1, by decide, by decide⟩

/-- The detailed read of an object whose index names an occupied slot, as the chain of its
three tests. -/
theorem getMicroseconds_of_slot (reg : Registry) (micros : Nat) (self : RCReader)
    (Value : Nat) (r : _RCReaderObject)
    (hidx : self._RCReaderIndexNum < TOTAL_NUM_OF_PC_INTERRUPTS)
    (hslot : slot reg self._RCReaderIndexNum = some r) :
    RCReader.getMicroseconds reg micros self Value =
      if passedTime r.lastMicros micros / 1000 > self._timeout ∧ self._timeout ≠ 0 then
        some { status := RCRStatus.RCR_Timeout, Value := r.currentValue, self := self }
      else if (r.currentValue ≥ self._validMinimum ∧ r.currentValue ≤ self._validMaximum) ∨
          (self._validMinimum = 0 ∧ self._validMaximum = 0) then
        some { status := RCRStatus.RCR_OK, Value := r.currentValue,
               self := { self with _lastValidValue := r.currentValue } }
      else if self._holdLastValidValue = true then
        some { status := RCRStatus.RCR_InvalidValue, Value := self._lastValidValue, self := self }
      else
        some { status := RCRStatus.RCR_InvalidValue, Value := r.currentValue, self := self } := by
  have hne : self._RCReaderIndexNum ≠ TOTAL_NUM_OF_PC_INTERRUPTS + 1 := by omega
  unfold RCReader.getMicroseconds
  rw [if_neg hne, if_pos hidx, hslot]

/-- No time has passed when the clock still shows the value stored as `lastMicros`. -/
theorem passedTime_self (micros : Nat) : passedTime micros micros = 0 := by
  unfold passedTime
  simp

/-- C14. For every pin and every configuration, on a table of 18 slots with a free slot: the
detailed read made right after the constructor, at the clock value of the construction,
returns a result; the status is `RCR_OK` with value 0 when the range is `(0, 0)` or contains
0, it is `RCR_InvalidValue` otherwise, and it is never `RCR_Timeout`. -/
theorem read_after_construction (reg : Registry) (micros : Nat) (PinToAttach : RCReaderPin)
    (timeoutInMilliseconds validMinimumValue validMaximumValue : Nat)
    (holdLastValueOnFailure : Bool) (mem : RCReader) (indeterminate : _ISR_Mappings)
    (Value : Nat)
    (hlen : reg.length = TOTAL_NUM_OF_PC_INTERRUPTS)
    (hfree : ∃ i, i < TOTAL_NUM_OF_PC_INTERRUPTS ∧ slot reg i = none) :
    ∃ out,
      RCReader.getMicroseconds
        (RCReader.new reg micros PinToAttach timeoutInMilliseconds validMinimumValue
          validMaximumValue holdLastValueOnFailure mem indeterminate).2 micros
        (RCReader.new reg micros PinToAttach timeoutInMilliseconds validMinimumValue
          validMaximumValue holdLastValueOnFailure mem indeterminate).1 Value = some out ∧
      (((validMinimumValue = 0 ∧ validMaximumValue = 0) ∨
          (validMinimumValue ≤ 0 ∧ 0 ≤ validMaximumValue)) →
        out.status = RCRStatus.RCR_OK ∧ out.Value = 0) ∧
      (¬ ((validMinimumValue = 0 ∧ validMaximumValue = 0) ∨
          (validMinimumValue ≤ 0 ∧ 0 ≤ validMaximumValue)) →
        out.status = RCRStatus.RCR_InvalidValue) ∧
      out.status ≠ RCRStatus.RCR_Timeout := by
  obtain ⟨n, hn, _, _, hfind⟩ := findFreeSlot_lowest reg hfree
  rw [new_of_findFreeSlot reg micros PinToAttach timeoutInMilliseconds validMinimumValue
    validMaximumValue holdLastValueOnFailure mem indeterminate n hfind]
  have hslot : slot (reg.set n (some (freshRecord PinToAttach micros indeterminate))) n =
      some (freshRecord PinToAttach micros indeterminate) := slot_set_eq _ _ _ (by omega)
  rw [getMicroseconds_of_slot _ micros _ Value _ hn hslot]
  have hpass : passedTime (freshRecord PinToAttach micros indeterminate).lastMicros micros = 0 :=
    passedTime_self micros
  have hcur : (freshRecord PinToAttach micros indeterminate).currentValue = 0 := rfl
  rw [hpass, hcur]
  simp only [Nat.zero_div, gt_iff_lt, Nat.not_lt_zero, false_and, if_false, ge_iff_le,
    Nat.le_zero_eq, Nat.zero_le, and_true]
  by_cases hlo : validMinimumValue = 0
  · simp [hlo]
  · simp [hlo]
    cases holdLastValueOnFailure <;> simp

/-- Witness of C14: pin 0 with range 1000..2000, holding, timeout 100 ms, constructed at clock
value 1000 on the table whose slot 0 holds the reader of pin 53. -/
theorem read_after_construction_witness :
    ∃ out,
      RCReader.getMicroseconds
        (RCReader.new (oneReader 0) 1000 RCReaderPin.RCR_PIN_0 100 1000 2000 true zeroed
          _ISR_Mappings.PCINT0_ISR).2 1000
        (RCReader.new (oneReader 0) 1000 RCReaderPin.RCR_PIN_0 100 1000 2000 true zeroed
          _ISR_Mappings.PCINT0_ISR).1 7 = some out ∧
      ((((1000 : Nat) = 0 ∧ (2000 : Nat) = 0) ∨ ((1000 : Nat) ≤ 0 ∧ 0 ≤ (2000 : Nat))) →
        out.status = RCRStatus.RCR_OK ∧ out.Value = 0) ∧
      (¬ (((1000 : Nat) = 0 ∧ (2000 : Nat) = 0) ∨ ((1000 : Nat) ≤ 0 ∧ 0 ≤ (2000 : Nat))) →
        out.status = RCRStatus.RCR_InvalidValue) ∧
      out.status ≠ RCRStatus.RCR_Timeout :=
  read_after_construction (oneReader 0) 1000 RCReaderPin.RCR_PIN_0 100 1000 2000 true zeroed
    _ISR_Mappings.PCINT0_ISR 7 (by decide) ⟨1, by decide, by decide⟩

end Construction

section Policy

/-- A detailed read that returns `RCR_OK` returns the value it stores as last valid value,
and changes nothing else of the object. -/
theorem getMicroseconds_ok (reg : Registry) (micros : Nat) (self : RCReader) (Value : Nat)
    (out : ReadOutcome) (hidx : self._RCReaderIndexNum < TOTAL_NUM_OF_PC_INTERRUPTS)
    (hread : RCReader.getMicroseconds reg micros self Value = some out)
    (hok : out.status = RCRStatus.RCR_OK) :
    out.self = { self with _lastValidValue := out.Value } := by
  have hne : self._RCReaderIndexNum ≠ TOTAL_NUM_OF_PC_INTERRUPTS + 1 := by omega
  unfold RCReader.getMicroseconds at hread
  rw [if_neg hne, if_pos hidx] at hread
  cases hs : slot reg self._RCReaderIndexNum with
  | none =>
    rw [hs] at hread
    cases hread
  | some r =>
    rw [hs] at hread
    simp only [] at hread
    split at hread
    · cases hread
      cases hok
    · split at hread
      · cases hread
        rfl
      · split at hread
        · cases hread
          cases hok
        · cases hread
          cases hok

/-- C13 on the code: the reader of pin 53, range 30000..50000, holding, no timeout. After
a pulse of 40000 the detailed read returns `RCR_OK` with 40000; after a further pulse of
60000 the detailed read returns `RCR_InvalidValue` with 40000 and the simplified read
returns -25536, not the held 40000. -/
theorem hold_large_value :
    RCReader.getMicroseconds (afterPulse (oneReader 0) 1000 40000) 50000 wideRangeReader 7 =
      some { status := RCRStatus.RCR_OK, Value := 40000,
             self := { wideRangeReader with _lastValidValue := 40000 } } ∧
    RCReader.getMicroseconds (afterPulse (afterPulse (oneReader 0) 1000 40000) 100000 60000)
        170000 { wideRangeReader with _lastValidValue := 40000 } 7 =
      some { status := RCRStatus.RCR_InvalidValue, Value := 40000,
             self := { wideRangeReader with _lastValidValue := 40000 } } ∧
    RCReader.getMicrosecondsSimplified
        (afterPulse (afterPulse (oneReader 0) 1000 40000) 100000 60000)
        170000 { wideRangeReader with _lastValidValue := 40000 } 7 =
      some (-25536, { wideRangeReader with _lastValidValue := 40000 }) := by
  decide

/-- Holding on held values that fit the return type of the simplified read. An object with
timeout 0 and a range other than `(0, 0)` whose detailed read returned `RCR_OK` with value `v`; afterwards its slot holds a measured value outside
the range. When holding is configured the next detailed read returns `RCR_InvalidValue` with
`v`, and the next simplified read returns `v` provided `v` is below 32768. When holding is
not configured the next detailed read returns `RCR_InvalidValue` with the new measured value
and the next simplified read returns -1. -/
theorem hold_after_valid_read (before after : Registry) (micros1 micros2 : Nat)
    (self : RCReader) (Value1 Value2 : Nat) (out1 : ReadOutcome) (r : _RCReaderObject)
    (hidx : self._RCReaderIndexNum < TOTAL_NUM_OF_PC_INTERRUPTS)
    (hread : RCReader.getMicroseconds before micros1 self Value1 = some out1)
    (hok : out1.status = RCRStatus.RCR_OK)
    (htimeout : self._timeout = 0)
    (hrange : ¬ (self._validMinimum = 0 ∧ self._validMaximum = 0))
    (hslot : slot after self._RCReaderIndexNum = some r)
    (hout : r.currentValue < self._validMinimum ∨ self._validMaximum < r.currentValue) :
    (self._holdLastValidValue = true →
      RCReader.getMicroseconds after micros2 out1.self Value2 =
        some { status := RCRStatus.RCR_InvalidValue, Value := out1.Value, self := out1.self } ∧
      (out1.Value < 32768 →
        RCReader.getMicrosecondsSimplified after micros2 out1.self Value2 =
          some ((out1.Value : Int), out1.self))) ∧
    (self._holdLastValidValue = false →
      RCReader.getMicroseconds after micros2 out1.self Value2 =
        some { status := RCRStatus.RCR_InvalidValue, Value := r.currentValue,
               self := out1.self } ∧
      RCReader.getMicrosecondsSimplified after micros2 out1.self Value2 =
        some (-1, out1.self)) := by
  have hself := getMicroseconds_ok before micros1 self Value1 out1 hidx hread hok
  have hnotime : ¬ (passedTime r.lastMicros micros2 / 1000 > out1.self._timeout ∧
      out1.self._timeout ≠ 0) := by
    rw [hself]
    intro hc
    exact hc.2 htimeout
  have hnorange : ¬ ((r.currentValue ≥ out1.self._validMinimum ∧
      r.currentValue ≤ out1.self._validMaximum) ∨
      (out1.self._validMinimum = 0 ∧ out1.self._validMaximum = 0)) := by
    rw [hself]
    intro hc
    rcases hc with hc | hc
    · have h1 : self._validMinimum ≤ r.currentValue := hc.1
      have h2 : r.currentValue ≤ self._validMaximum := hc.2
      omega
    · exact hrange hc
  have hidx1 : out1.self._RCReaderIndexNum = self._RCReaderIndexNum := by rw [hself]
  have hhold1 : out1.self._holdLastValidValue = self._holdLastValidValue := by rw [hself]
  have hlast1 : out1.self._lastValidValue = out1.Value := by rw [hself]
  have hdetail := getMicroseconds_of_slot after micros2 out1.self Value2 r
    (by rw [hidx1]; exact hidx) (by rw [hidx1]; exact hslot)
  rw [if_neg hnotime, if_neg hnorange, hhold1] at hdetail
  constructor
  · intro hh
    rw [if_pos hh, hlast1] at hdetail
    refine ⟨hdetail, fun hv => ?_⟩
    unfold RCReader.getMicrosecondsSimplified
    rw [hdetail]
    simp only [hhold1, hh, or_true, if_true]
    rw [toInt16_of_lt _ hv]
  · intro hh
    rw [if_neg (by rw [hh]; decide)] at hdetail
    refine ⟨hdetail, ?_⟩
    unfold RCReader.getMicrosecondsSimplified
    rw [hdetail]
    simp [hhold1, hh]

/-- An instance of `hold_after_valid_read`: the scenario of the specification, range
1000..2000, a pulse of 1500 read as `RCR_OK`, then a pulse of 500, holding configured. -/
theorem hold_after_valid_read_witness :
    (true = true →
      RCReader.getMicroseconds (afterPulse (afterPulse (oneReader 0) 1000 1500) 20000 500)
          30000
          { _validMinimum := 1000, _validMaximum := 2000, _lastValidValue := 1500,
            _timeout := 0, _holdLastValidValue := true, _RCReaderIndexNum := 0 } 7 =
        some { status := RCRStatus.RCR_InvalidValue, Value := 1500,
               self := { _validMinimum := 1000, _validMaximum := 2000,
                         _lastValidValue := 1500, _timeout := 0,
                         _holdLastValidValue := true, _RCReaderIndexNum := 0 } } ∧
      ((1500 : Nat) < 32768 →
        RCReader.getMicrosecondsSimplified
            (afterPulse (afterPulse (oneReader 0) 1000 1500) 20000 500) 30000
            { _validMinimum := 1000, _validMaximum := 2000, _lastValidValue := 1500,
              _timeout := 0, _holdLastValidValue := true, _RCReaderIndexNum := 0 } 7 =
          some ((1500 : Int),
                { _validMinimum := 1000, _validMaximum := 2000, _lastValidValue := 1500,
                  _timeout := 0, _holdLastValidValue := true, _RCReaderIndexNum := 0 }))) ∧
    (true = false →
      RCReader.getMicroseconds (afterPulse (afterPulse (oneReader 0) 1000 1500) 20000 500)
          30000
          { _validMinimum := 1000, _validMaximum := 2000, _lastValidValue := 1500,
            _timeout := 0, _holdLastValidValue := true, _RCReaderIndexNum := 0 } 7 =
        some { status := RCRStatus.RCR_InvalidValue, Value := 500,
               self := { _validMinimum := 1000, _validMaximum := 2000,
                         _lastValidValue := 1500, _timeout := 0,
                         _holdLastValidValue := true, _RCReaderIndexNum := 0 } } ∧
      RCReader.getMicrosecondsSimplified
          (afterPulse (afterPulse (oneReader 0) 1000 1500) 20000 500) 30000
          { _validMinimum := 1000, _validMaximum := 2000, _lastValidValue := 1500,
            _timeout := 0, _holdLastValidValue := true, _RCReaderIndexNum := 0 } 7 =
        some (-1,
              { _validMinimum := 1000, _validMaximum := 2000, _lastValidValue := 1500,
                _timeout := 0, _holdLastValidValue := true, _RCReaderIndexNum := 0 })) :=
  hold_after_valid_read (afterPulse (oneReader 0) 1000 1500)
    (afterPulse (afterPulse (oneReader 0) 1000 1500) 20000 500) 10000 30000
    { _validMinimum := 1000, _validMaximum := 2000, _lastValidValue := 0, _timeout := 0,
      _holdLastValidValue := true, _RCReaderIndexNum := 0 } 7 7
    { status := RCRStatus.RCR_OK, Value := 1500,
      self := { _validMinimum := 1000, _validMaximum := 2000, _lastValidValue := 1500,
                _timeout := 0, _holdLastValidValue := true, _RCReaderIndexNum := 0 } }
    { attatchedPin := 53, lastState := false, lastMicros := 20000, currentValue := 500,
      assignedISR := _ISR_Mappings.PCINT0_ISR }
    (by decide) (by decide) (by decide) (by decide) (by decide) (by decide) (by decide)

/-- C15, as stated, fails: a reader with timeout 100 ms whose slot holds a measured 1500
stamped at 0, no edge and no setter call in between: the detailed read at clock value 5000
returns `RCR_OK`, the next one at 200000000 returns `RCR_Timeout`. -/
theorem repeated_read_across_timeout :
    RCReader.getMicroseconds
        [some { attatchedPin := 53, lastState := false, lastMicros := 0, currentValue := 1500,
                assignedISR := _ISR_Mappings.PCINT0_ISR }]
        5000 { zeroed with _timeout := 100 } 7 =
      some { status := RCRStatus.RCR_OK, Value := 1500,
             self := { zeroed with _timeout := 100, _lastValidValue := 1500 } } ∧
    RCReader.getMicroseconds
        [some { attatchedPin := 53, lastState := false, lastMicros := 0, currentValue := 1500,
                assignedISR := _ISR_Mappings.PCINT0_ISR }]
        200000000 { zeroed with _timeout := 100, _lastValidValue := 1500 } 7 =
      some { status := RCRStatus.RCR_Timeout, Value := 1500,
             self := { zeroed with _timeout := 100, _lastValidValue := 1500 } } := by
  decide

/-- C15, amended. An object whose index names an occupied slot, read twice on the same table
with no setter call in between, at two clock values for which the timeout test has the same
outcome (as it has whenever the timeout is 0): both detailed reads return a result, with the
same status and the same value, and the second read leaves the object as the first left
it. -/
theorem repeated_read (reg : Registry) (micros1 micros2 : Nat) (self : RCReader)
    (Value1 Value2 : Nat) (r : _RCReaderObject)
    (hidx : self._RCReaderIndexNum < TOTAL_NUM_OF_PC_INTERRUPTS)
    (hslot : slot reg self._RCReaderIndexNum = some r)
    (hsame : (passedTime r.lastMicros micros1 / 1000 > self._timeout ∧ self._timeout ≠ 0) ↔
      (passedTime r.lastMicros micros2 / 1000 > self._timeout ∧ self._timeout ≠ 0)) :
    ∃ out1 out2,
      RCReader.getMicroseconds reg micros1 self Value1 = some out1 ∧
      RCReader.getMicroseconds reg micros2 out1.self Value2 = some out2 ∧
      out2.status = out1.status ∧ out2.Value = out1.Value ∧ out2.self = out1.self := by
  rw [getMicroseconds_of_slot reg micros1 self Value1 r hidx hslot]
  by_cases ht : passedTime r.lastMicros micros1 / 1000 > self._timeout ∧ self._timeout ≠ 0
  · rw [if_pos ht]
    refine ⟨_, _, rfl, ?_, rfl, rfl, rfl⟩
    rw [getMicroseconds_of_slot reg micros2 self Value2 r hidx hslot, if_pos (hsame.mp ht)]
  · rw [if_neg ht]
    have ht2 := fun h => ht (hsame.mpr h)
    by_cases hr : (r.currentValue ≥ self._validMinimum ∧ r.currentValue ≤ self._validMaximum) ∨
        (self._validMinimum = 0 ∧ self._validMaximum = 0)
    · rw [if_pos hr]
      refine ⟨_, _, rfl, ?_, rfl, rfl, rfl⟩
      have h2 := getMicroseconds_of_slot reg micros2
        { self with _lastValidValue := r.currentValue } Value2 r hidx hslot
      simp only [] at h2
      rw [if_neg ht2, if_pos hr] at h2
      exact h2
    · rw [if_neg hr]
      by_cases hh : self._holdLastValidValue = true
      · rw [if_pos hh]
        refine ⟨_, _, rfl, ?_, rfl, rfl, rfl⟩
        rw [getMicroseconds_of_slot reg micros2 self Value2 r hidx hslot, if_neg ht2,
          if_neg hr, if_pos hh]
      · rw [if_neg hh]
        refine ⟨_, _, rfl, ?_, rfl, rfl, rfl⟩
        rw [getMicroseconds_of_slot reg micros2 self Value2 r hidx hslot, if_neg ht2,
          if_neg hr, if_neg hh]

/-- Witness of C15, amended: a reader with timeout 100 ms, range 1000..2000 and holding, whose
slot holds a measured 2600 stamped at 0, read at clock values 5000 and 90000. -/
theorem repeated_read_witness :
    ∃ out1 out2,
      RCReader.getMicroseconds
        [some { attatchedPin := 53, lastState := false, lastMicros := 0, currentValue := 2600,
                assignedISR := _ISR_Mappings.PCINT0_ISR }]
        5000
        { _validMinimum := 1000, _validMaximum := 2000, _lastValidValue := 1500,
          _timeout := 100, _holdLastValidValue := true, _RCReaderIndexNum := 0 } 7 =
          some out1 ∧
      RCReader.getMicroseconds
        [some { attatchedPin := 53, lastState := false, lastMicros := 0, currentValue := 2600,
                assignedISR := _ISR_Mappings.PCINT0_ISR }]
        90000 out1.self 8 = some out2 ∧
      out2.status = out1.status ∧ out2.Value = out1.Value ∧ out2.self = out1.self :=
  repeated_read
    [some { attatchedPin := 53, lastState := false, lastMicros := 0, currentValue := 2600,
            assignedISR := _ISR_Mappings.PCINT0_ISR }]
    5000 90000
    { _validMinimum := 1000, _validMaximum := 2000, _lastValidValue := 1500, _timeout := 100,
      _holdLastValidValue := true, _RCReaderIndexNum := 0 } 7 8
    { attatchedPin := 53, lastState := false, lastMicros := 0, currentValue := 2600,
      assignedISR := _ISR_Mappings.PCINT0_ISR }
    (by decide) (by decide) (by decide)

/-- C20 on the code: for the reader of pin 53 without range check or timeout, after a pulse
of 65535 the detailed read returns `RCR_OK` with value 65535 and the simplified read returns
-1. -/
theorem sentinel_on_ok :
    RCReader.getMicroseconds (afterPulse (oneReader 0) 1000 65535) 70000 zeroed 7 =
      some { status := RCRStatus.RCR_OK, Value := 65535,
             self := { zeroed with _lastValidValue := 65535 } } ∧
    RCReader.getMicrosecondsSimplified (afterPulse (oneReader 0) 1000 65535) 70000 zeroed 7 =
      some (-1, { zeroed with _lastValidValue := 65535 }) := by
  decide

end Policy

section Frame

/-- The calculator loop leaves every slot behind a free slot as it is. -/
theorem calculateFrom_slot_behind_free (mask : Nat → Nat) (g : _ISR_Mappings) (ps now : Nat)
    (fuel i : Nat) (reg : Registry) (m k : Nat) (him : i ≤ m) (hmk : m ≤ k)
    (hfree : slot reg m = none) :
    slot (calculateFrom mask g ps now fuel i reg) k = slot reg k := by
  induction fuel generalizing i reg with
  | zero => rfl
  | succ n ih =>
    unfold calculateFrom
    split
    · cases hs : slot reg i with
      | none => rfl
      | some r =>
        have hne : i ≠ m := by
          intro hc
          rw [hc, hfree] at hs
          cases hs
        simp only []
        split
        · rw [ih (i + 1) _ (by omega) (by rw [slot_set_ne _ _ _ _ hne]; exact hfree),
            slot_set_ne _ _ _ _ (by omega)]
        · exact ih (i + 1) _ (by omega) hfree
    · rfl

/-- On a table of 18 slots it is enough to look at the 18 slots to see that the occupied
ones are those below `n`. -/
theorem occupiedBelow_of_bounded (reg : Registry) (n : Nat)
    (hlen : reg.length = TOTAL_NUM_OF_PC_INTERRUPTS) (hn : n ≤ TOTAL_NUM_OF_PC_INTERRUPTS)
    (h : ∀ j, j < TOTAL_NUM_OF_PC_INTERRUPTS → (slot reg j ≠ none ↔ j < n)) :
    OccupiedBelow reg n := by
  intro j
  by_cases hj : j < TOTAL_NUM_OF_PC_INTERRUPTS
  · exact h j hj
  · rw [slot_of_length_le reg j (by omega)]
    simp only [ne_eq, not_true_eq_false, false_iff]
    omega

/-- One call of `_calculateRCReaderCurrentValue` on a table of 18 slots whose occupied slots
are those below `n` visits every occupied slot and leaves the free slots free. -/
theorem calculate_slot_all (mask : Nat → Nat) (g : _ISR_Mappings) (ps now : Nat)
    (reg : Registry) (n : Nat) (hlen : reg.length = TOTAL_NUM_OF_PC_INTERRUPTS)
    (hocc : OccupiedBelow reg n) (k : Nat) :
    slot (_calculateRCReaderCurrentValue mask g ps now reg) k =
      (slot reg k).map (visitReader mask g ps now) := by
  by_cases hk : k < n
  · have hn : n ≤ reg.length := occupiedBelow_le reg n hocc
    exact calculate_slot mask g ps now reg k (by omega) (fun j hj => (hocc j).mpr (by omega))
  · have hnone : slot reg k = none := by
      by_contra hc
      exact hk ((hocc k).mp hc)
    have hn : slot reg n = none := by
      by_contra hc
      exact absurd ((hocc n).mp hc) (by omega)
    have hsame : slot (_calculateRCReaderCurrentValue mask g ps now reg) k = slot reg k :=
      calculateFrom_slot_behind_free mask g ps now _ 0 reg n k (Nat.zero_le n) (by omega) hn
    rw [hsame, hnone]
    rfl

/-- The level the calculator reads for a pin is high exactly when the snapshot has bit 7 set,
for pin 0, and has a bit of `digitalPinToBitMask` of the pin set, for every other pin. -/
theorem currentPinState_iff (mask : Nat → Nat) (pin ps : Nat) :
    currentPinState mask pin ps = true ↔
      (pin = 0 ∧ ps &&& 0x80 ≠ 0) ∨ (pin ≠ 0 ∧ ps &&& mask pin ≠ 0) := by
  unfold currentPinState
  by_cases hp : pin = 0
  · by_cases hb : ps &&& 0x80 = 0
    · simp [hp, hb]
    · simp [hp, hb]
  · by_cases hb : ps &&& mask pin = 0
    · simp [hp, hb]
    · simp [hp, hb]

/-- What one visit of the calculator does to a reader served by the interrupt routine it runs
for, in terms of the level `currentPinState` reads. -/
theorem visitReader_same_group (mask : Nat → Nat) (g : _ISR_Mappings) (ps now : Nat)
    (r : _RCReaderObject) (hr : r.assignedISR = g) :
    (visitReader mask g ps now r).attatchedPin = r.attatchedPin ∧
    (visitReader mask g ps now r).assignedISR = r.assignedISR ∧
    (visitReader mask g ps now r).lastState = currentPinState mask r.attatchedPin ps ∧
    (visitReader mask g ps now r).lastMicros =
      (if r.lastState = false ∧ currentPinState mask r.attatchedPin ps = true then now
       else r.lastMicros) ∧
    ((visitReader mask g ps now r).currentValue ≠ r.currentValue →
      r.lastState = true ∧ currentPinState mask r.attatchedPin ps = false) := by
  unfold visitReader
  rw [if_pos hr]
  unfold updateReader
  cases hl : r.lastState <;> cases hp : currentPinState mask r.attatchedPin ps
  · simp
  · simp
  · simp only [Bool.true_eq_false, and_false, and_self, if_false, if_true, true_and,
      false_and, ne_eq, implies_true, and_true]
    split <;> simp
  · simp

/-- C16. On a table of 18 slots whose occupied slots are those below `n`, for every interrupt
routine `g`, port snapshot `ps` and clock value, one call of the calculator keeps every free
slot free and every occupied slot occupied, in place. A reader served by another routine is
left as it is. For a reader served by `g`: pin and routine are kept; the new `lastState` is
high exactly when the snapshot has bit 7 set, for pin 0, or has a bit of
`digitalPinToBitMask` of the pin set, for any other pin; `lastMicros` becomes the clock value
exactly when `lastState` goes from low to high and is kept otherwise; `currentValue` changes
only when `lastState` goes from high to low. -/
theorem calculate_frame (mask : Nat → Nat) (g : _ISR_Mappings) (ps now : Nat)
    (reg : Registry) (n : Nat) (hlen : reg.length = TOTAL_NUM_OF_PC_INTERRUPTS)
    (hocc : OccupiedBelow reg n) :
    (∀ k, slot reg k = none →
      slot (_calculateRCReaderCurrentValue mask g ps now reg) k = none) ∧
    (∀ k r, slot reg k = some r →
      ∃ r', slot (_calculateRCReaderCurrentValue mask g ps now reg) k = some r' ∧
        (r.assignedISR ≠ g → r' = r) ∧
        (r.assignedISR = g →
          r'.attatchedPin = r.attatchedPin ∧
          r'.assignedISR = r.assignedISR ∧
          (r'.lastState = true ↔
            (r.attatchedPin = 0 ∧ ps &&& 0x80 ≠ 0) ∨
            (r.attatchedPin ≠ 0 ∧ ps &&& mask r.attatchedPin ≠ 0)) ∧
          r'.lastMicros =
            (if r.lastState = false ∧ r'.lastState = true then now else r.lastMicros) ∧
          (r'.currentValue ≠ r.currentValue →
            r.lastState = true ∧ r'.lastState = false))) := by
  constructor
  · intro k hk
    rw [calculate_slot_all mask g ps now reg n hlen hocc k, hk]
    rfl
  · intro k r hk
    refine ⟨visitReader mask g ps now r, ?_, ?_, ?_⟩
    · rw [calculate_slot_all mask g ps now reg n hlen hocc k, hk]
      rfl
    · intro hr
      unfold visitReader
      rw [if_neg hr]
    · intro hr
      obtain ⟨h1, h2, h3, h4, h5⟩ := visitReader_same_group mask g ps now r hr
      refine ⟨h1, h2, ?_, ?_, ?_⟩
      · rw [h3]
        exact currentPinState_iff mask r.attatchedPin ps
      · rw [h3]
        exact h4
      · rw [h3]
        exact h5

/-- Witness of C16: the table `mixedReaders`, the routine `PCINT0_ISR` run at clock value
2500 with a snapshot in which pin 53 (bit 0) is high and pin 52 (bit 1) is low. The reader of
pin 53 records the rising edge, the reader of pin 0, served by another routine, is left as
it is, the reader of pin 52 records the pulse of 1500, and the free slots stay free. -/
theorem calculate_frame_witness :
    ((∀ k, slot mixedReaders k = none →
        slot (_calculateRCReaderCurrentValue megaBitMask _ISR_Mappings.PCINT0_ISR 1 2500
          mixedReaders) k = none) ∧
      (∀ k r, slot mixedReaders k = some r →
        ∃ r', slot (_calculateRCReaderCurrentValue megaBitMask _ISR_Mappings.PCINT0_ISR 1 2500
            mixedReaders) k = some r' ∧
          (r.assignedISR ≠ _ISR_Mappings.PCINT0_ISR → r' = r) ∧
          (r.assignedISR = _ISR_Mappings.PCINT0_ISR →
            r'.attatchedPin = r.attatchedPin ∧
            r'.assignedISR = r.assignedISR ∧
            (r'.lastState = true ↔
              (r.attatchedPin = 0 ∧ 1 &&& 0x80 ≠ 0) ∨
              (r.attatchedPin ≠ 0 ∧ 1 &&& megaBitMask r.attatchedPin ≠ 0)) ∧
            r'.lastMicros =
              (if r.lastState = false ∧ r'.lastState = true then 2500 else r.lastMicros) ∧
            (r'.currentValue ≠ r.currentValue →
              r.lastState = true ∧ r'.lastState = false)))) ∧
    (_calculateRCReaderCurrentValue megaBitMask _ISR_Mappings.PCINT0_ISR 1 2500
        mixedReaders).take 4 =
      [some { attatchedPin := 53, lastState := true, lastMicros := 2500, currentValue := 0,
              assignedISR := _ISR_Mappings.PCINT0_ISR },
       some { attatchedPin := 0, lastState := false, lastMicros := 0, currentValue := 0,
              assignedISR := _ISR_Mappings.PCINT1_ISR },
       some { attatchedPin := 52, lastState := false, lastMicros := 1000, currentValue := 1500,
              assignedISR := _ISR_Mappings.PCINT0_ISR },
       none] :=
  ⟨calculate_frame megaBitMask _ISR_Mappings.PCINT0_ISR 1 2500 mixedReaders 3 (by decide)
      (occupiedBelow_of_bounded mixedReaders 3 (by decide) (by decide) (by decide)),
    by decide⟩

/-- On a falling edge the calculator stores `fallingEdgeElapsed`, cut to 16 bits, as
`currentValue`. -/
theorem updateReader_falling_value (mask : Nat → Nat) (ps now : Nat) (r : _RCReaderObject)
    (hhigh : r.lastState = true) (hlow : currentPinState mask r.attatchedPin ps = false) :
    (updateReader mask ps now r).currentValue =
      fallingEdgeElapsed r.lastMicros now % UINT16_MOD := by
  unfold updateReader fallingEdgeElapsed
  simp only [hhigh, hlow, Bool.false_eq_true, Bool.true_eq_false, and_false, and_self,
    if_false, if_true]
  split <;> rfl

/-- The elapsed time of the detailed read is that of the specification, for 32-bit clock
values. -/
theorem passedTime_eq_spec (lastMicros micros : Nat) (h1 : lastMicros ≤ UINT32_MAX)
    (h2 : micros ≤ UINT32_MAX) :
    passedTime lastMicros micros = specWraparoundSafeSubtract micros lastMicros := by
  rw [passedTime_eq lastMicros micros h1 h2]
  rfl

/-- The elapsed time of the calculator is that of the specification, for 32-bit clock
values that differ. -/
theorem fallingEdgeElapsed_eq_spec (lastMicros micros : Nat) (h1 : lastMicros ≤ UINT32_MAX)
    (h2 : micros ≤ UINT32_MAX) (hne : lastMicros ≠ micros) :
    fallingEdgeElapsed lastMicros micros = specWraparoundSafeSubtract micros lastMicros := by
  unfold fallingEdgeElapsed specWraparoundSafeSubtract
  unfold UINT32_MAX at *
  unfold UINT32_MOD
  by_cases hlt : lastMicros < micros
  · rw [if_pos hlt, if_neg (by omega)]
    apply Nat.mod_eq_of_lt
    omega
  · rw [if_neg hlt, if_pos (by omega)]
    apply Nat.mod_eq_of_lt
    omega

/-- C17 on the code: with the clock at 1000 and `lastMicros` at 1000 the calculator computes
the elapsed time 4294967295 and stores 65535 for a reader whose line falls, while the
detailed read computes 0, which is what the specification's function gives. -/
theorem elapsed_differs_at_equal_clock :
    fallingEdgeElapsed 1000 1000 = 4294967295 ∧
    (updateReader megaBitMask 0 1000
      { attatchedPin := 53, lastState := true, lastMicros := 1000, currentValue := 0,
        assignedISR := _ISR_Mappings.PCINT0_ISR }).currentValue = 65535 ∧
    passedTime 1000 1000 = 0 ∧
    specWraparoundSafeSubtract 1000 1000 = 0 := by
  decide

/-- C18 on the code: the table has 18 slots, `RCReaderPin` has 19 pins, each with a PCINT
number other than 255; of nineteen constructor calls from the empty table, one on each pin,
the last yields an object with index 19 whose detailed read returns `RCR_InitFailed`. -/
theorem capacity_below_pin_count :
    TOTAL_NUM_OF_PC_INTERRUPTS = 18 ∧
    allPins.length = 19 ∧
    allPins.Nodup ∧
    (∀ pin : RCReaderPin, pin ∈ allPins) ∧
    (∀ pin : RCReaderPin, RCReader._PinToInterruptMap pin.toNat ≠ 255) ∧
    (Sketch.start.run allPinEvents).map
      (fun s => s.live.map (fun h => h._RCReaderIndexNum)) =
        some [0, 1, 2, 3, 4, 5, 6, 7, 8, 9, 10, 11, 12, 13, 14, 15, 16, 17, 19] ∧
    ((Sketch.start.run allPinEvents).bind (fun s => s.read 18 0 7)).map
      (fun out => out.status) = some RCRStatus.RCR_InitFailed := by
  refine ⟨rfl, rfl, by decide, fun pin => ?_, fun pin => ?_, by decide, by decide⟩
  · cases pin <;> decide
  · cases pin <;> decide

end Frame

section Traces

/-- The last table the shifting loop passes through is the table it returns. -/
theorem shiftDownTrace_last (fuel i : Nat) (reg : Registry) :
    (shiftDownTrace fuel i reg).getLastD reg = shiftDown fuel i reg := by
  induction fuel generalizing i reg with
  | zero => rfl
  | succ n ih =>
    unfold shiftDownTrace shiftDown
    split
    · split
      · rfl
      · rw [List.getLastD_cons]
        exact ih (i + 1) _
    · rfl

/-- The last state the destructor passes through holds the table the destructor returns. -/
theorem deleteTrace_last (m : Machine) (self : RCReader) :
    (RCReader.deleteTrace m self).map (fun l => (l.getLastD m).table) =
      RCReader.delete m.table self := by
  unfold RCReader.deleteTrace RCReader.delete
  split
  · simp only [Option.map_some', List.map_cons, List.getLastD_cons, Option.some.injEq]
    rw [← shiftDownTrace_last]
    generalize shiftDownTrace _ _ _ = l
    generalize List.set m.table self._RCReaderIndexNum none = t
    induction l generalizing t with
    | nil => rfl
    | cons x xs ih =>
      simp only [List.map_cons, List.getLastD_cons]
      exact ih x
  · rfl

/-- The state a constructor call ends in holds the table the constructor returns. -/
theorem construct_table (m : Machine) (c : CtorCall) :
    (m.construct c).table = (c.run m.table).2 := by
  unfold Machine.construct CtorCall.trace CtorCall.run RCReader.new
  cases findFreeSlot m.table TOTAL_NUM_OF_PC_INTERRUPTS 0 <;> rfl

/-- C19 on the code: after the three constructor calls of `threeReaders` the interrupt flag
is set. The destructor of the first object (index 0) passes through four states, all with
the interrupt flag set; in the first, slot 0 is free while slots 1 and 2 still hold the
readers of pins 52 and 51. An interrupt routine run on that state with pin 52 high
leaves the reader of pin 52 untouched, while on the table before the destructor it records
the rising edge. -/
theorem destructor_not_atomic :
    threeMachine.interruptsEnabled = true ∧
    (Sketch.start.run threeReaders).map (fun s => s.table) = some threeMachine.table ∧
    (RCReader.deleteTrace threeMachine { zeroed with _RCReaderIndexNum := 0 }).map
      (fun l => l.map (fun m => m.interruptsEnabled)) = some [true, true, true, true] ∧
    (RCReader.deleteTrace threeMachine { zeroed with _RCReaderIndexNum := 0 }).map
      (fun l => l.map (fun m => (m.table.take 4).map (fun x => x.map (fun r => r.attatchedPin))))
      = some [[none, some 52, some 51, none], [some 52, some 52, some 51, none],
              [some 52, some 51, some 51, none], [some 52, some 51, none, none]] ∧
    ((RCReader.deleteTrace threeMachine { zeroed with _RCReaderIndexNum := 0 }).bind
      (fun l => l.head?)).map
      (fun m => slot (_calculateRCReaderCurrentValue megaBitMask _ISR_Mappings.PCINT0_ISR 2
        2000 m.table) 1) =
      some (some { attatchedPin := 52, lastState := false, lastMicros := 1000,
                   currentValue := 0, assignedISR := _ISR_Mappings.PCINT0_ISR }) ∧
    slot (_calculateRCReaderCurrentValue megaBitMask _ISR_Mappings.PCINT0_ISR 2 2000
        threeMachine.table) 1 =
      some { attatchedPin := 52, lastState := true, lastMicros := 2000, currentValue := 0,
             assignedISR := _ISR_Mappings.PCINT0_ISR } := by
  decide

end Traces

section OnePerPin

/-- C11, as stated, fails: after two constructor calls on pin 53 from the empty table, slots
0 and 1 both hold a record for pin 53. -/
theorem two_records_for_one_pin :
    Sketch.start.run twoOnOnePin = some twoOnOnePinResult ∧
    ¬ DistinctPins twoOnOnePinResult.table := by
  refine ⟨by decide, fun h => ?_⟩
  exact h 0 1
    { attatchedPin := 53, lastState := false, lastMicros := 0, currentValue := 0,
      assignedISR := _ISR_Mappings.PCINT0_ISR }
    { attatchedPin := 53, lastState := false, lastMicros := 1000, currentValue := 0,
      assignedISR := _ISR_Mappings.PCINT0_ISR }
    (by decide) (by decide) (by decide) rfl

/-- A pin that is not in use is the pin of no record in the table. -/
theorem pin_ne_of_not_inUse (reg : Registry) (pin i : Nat) (r : _RCReaderObject)
    (h : pinInUse reg pin = false) (hslot : slot reg i = some r) : r.attatchedPin ≠ pin := by
  have hmem : some r ∈ reg := by
    unfold slot at hslot
    rw [List.getD_eq_getElem?_getD] at hslot
    cases hg : reg[i]? with
    | none =>
      rw [hg] at hslot
      cases hslot
    | some x =>
      rw [hg] at hslot
      simp only [Option.getD_some] at hslot
      subst hslot
      exact List.getElem?_mem hg
  unfold pinInUse at h
  rw [List.any_eq_false] at h
  have hr := h (some r) hmem
  simpa using hr

/-- A constructor call on a pin that is not in use keeps the pins of the records in a table
of 18 slots distinct. -/
theorem new_distinctPins (reg : Registry) (c : CtorCall)
    (hlen : reg.length = TOTAL_NUM_OF_PC_INTERRUPTS) (hd : DistinctPins reg)
    (hfresh : pinInUse reg c.PinToAttach.toNat = false) :
    DistinctPins (c.run reg).2 := by
  by_cases hfree : ∃ i, i < TOTAL_NUM_OF_PC_INTERRUPTS ∧ slot reg i = none
  · obtain ⟨n, hn, _, _, hfind⟩ := findFreeSlot_lowest reg hfree
    unfold CtorCall.run
    rw [new_of_findFreeSlot reg c.micros c.PinToAttach c.timeoutInMilliseconds
      c.validMinimumValue c.validMaximumValue c.holdLastValueOnFailure c.mem c.indeterminate
      n hfind]
    intro i j r1 r2 hij h1 h2
    simp only [] at h1 h2
    by_cases hi : i = n
    · subst hi
      rw [slot_set_eq _ _ _ (by omega)] at h1
      rw [slot_set_ne _ _ _ _ hij] at h2
      cases h1
      exact fun hc => pin_ne_of_not_inUse reg _ j r2 hfresh h2 hc.symm
    · rw [slot_set_ne _ _ _ _ (fun hc => hi hc.symm)] at h1
      by_cases hj : j = n
      · subst hj
        rw [slot_set_eq _ _ _ (by omega)] at h2
        cases h2
        exact pin_ne_of_not_inUse reg _ i r1 hfresh h1
      · rw [slot_set_ne _ _ _ _ (fun hc => hj hc.symm)] at h2
        exact hd i j r1 r2 hij h1 h2
  · have hnone : findFreeSlot reg TOTAL_NUM_OF_PC_INTERRUPTS 0 = none :=
      findFreeSlot_none reg _ 0 (fun j _ hj hc => hfree ⟨j, hj, hc⟩)
    unfold CtorCall.run RCReader.new
    rw [hnone]
    exact hd

/-- The destructor of an object whose index names a free slot of a table of 18 slots, with
the occupied slots those below `n`, returns a table with the same contents in every slot. -/
theorem delete_stale (reg : Registry) (self : RCReader) (n : Nat)
    (hlen : reg.length = TOTAL_NUM_OF_PC_INTERRUPTS) (h : OccupiedBelow reg n)
    (hidx : self._RCReaderIndexNum < TOTAL_NUM_OF_PC_INTERRUPTS)
    (hge : n ≤ self._RCReaderIndexNum) :
    ∃ reg', RCReader.delete reg self = some reg' ∧ ∀ j, slot reg' j = slot reg j := by
  have hmod : (self._RCReaderIndexNum + 1) % 256 = self._RCReaderIndexNum + 1 := by
    apply Nat.mod_eq_of_lt
    unfold TOTAL_NUM_OF_PC_INTERRUPTS at hidx
    omega
  have hfreeAt : ∀ l, n ≤ l → slot reg l = none := by
    intro l hl
    by_contra hc
    exact absurd ((h l).mp hc) (by omega)
  unfold RCReader.delete
  rw [if_pos hidx, hmod]
  refine ⟨_, rfl, fun j => ?_⟩
  rw [shiftDown_slot _ _ _ (self._RCReaderIndexNum + 1) (by simp [hlen]) (by omega)
    (Nat.le_refl _) (by omega) (by omega) (fun l hl1 hl2 => by omega)
    (fun _ => by
      rw [slot_set_ne _ _ _ _ (by omega)]
      exact hfreeAt _ (by omega))]
  have hsucc : self._RCReaderIndexNum + 1 - 1 = self._RCReaderIndexNum := by omega
  rw [hsucc]
  by_cases hj : j < self._RCReaderIndexNum
  · rw [if_pos hj, slot_set_ne _ _ _ _ (by omega)]
  · rw [if_neg hj, if_neg hj]
    by_cases hj2 : j = self._RCReaderIndexNum
    · subst hj2
      rw [slot_set_eq _ _ _ (by omega), hfreeAt _ hge]
      split <;> rfl
    · rw [if_neg (fun hc => hj2 hc.2), slot_set_ne _ _ _ _ (fun hc => hj2 hc.symm)]

/-- The destructor of an object with an index inside a table of 18 slots, run with the occupied
slots those below `n` and with the last slot free or the index that of the last slot, keeps
the pins of the records distinct. -/
theorem delete_distinctPins (reg : Registry) (self : RCReader) (n : Nat)
    (hlen : reg.length = TOTAL_NUM_OF_PC_INTERRUPTS) (h : OccupiedBelow reg n)
    (hd : DistinctPins reg)
    (hidx : self._RCReaderIndexNum < TOTAL_NUM_OF_PC_INTERRUPTS)
    (hguard : slot reg (TOTAL_NUM_OF_PC_INTERRUPTS - 1) = none ∨
      self._RCReaderIndexNum = TOTAL_NUM_OF_PC_INTERRUPTS - 1) :
    ∃ reg', RCReader.delete reg self = some reg' ∧ DistinctPins reg' := by
  by_cases hk : self._RCReaderIndexNum < n
  · have hcase : n < TOTAL_NUM_OF_PC_INTERRUPTS ∨
        self._RCReaderIndexNum = TOTAL_NUM_OF_PC_INTERRUPTS - 1 := by
      rcases hguard with hg | hg
      · left
        by_contra hc
        exact (h (TOTAL_NUM_OF_PC_INTERRUPTS - 1)).mpr
          (by unfold TOTAL_NUM_OF_PC_INTERRUPTS at *; omega) hg
      · exact Or.inr hg
    obtain ⟨reg', hdel, hslots⟩ := delete_compacts reg self n hlen h hk hcase
    refine ⟨reg', hdel, ?_⟩
    intro i j r1 r2 hij h1 h2
    rw [hslots i] at h1
    rw [hslots j] at h2
    split at h1
    · split at h2
      · exact hd i j r1 r2 hij h1 h2
      · split at h2
        · exact hd i (j + 1) r1 r2 (by omega) h1 h2
        · cases h2
    · split at h1
      · split at h2
        · exact hd (i + 1) j r1 r2 (by omega) h1 h2
        · split at h2
          · exact hd (i + 1) (j + 1) r1 r2 (by omega) h1 h2
          · cases h2
      · cases h1
  · obtain ⟨reg', hdel, hslots⟩ := delete_stale reg self n hlen h hidx (by omega)
    refine ⟨reg', hdel, ?_⟩
    intro i j r1 r2 hij h1 h2
    rw [hslots i] at h1
    rw [hslots j] at h2
    exact hd i j r1 r2 hij h1 h2

/-- One disciplined event keeps the pins of the records in the table distinct. -/
theorem step_distinctPins (s t : Sketch) (e : Event)
    (hlen : s.table.length = TOTAL_NUM_OF_PC_INTERRUPTS) (h : ∃ n, OccupiedBelow s.table n)
    (hd : DistinctPins s.table) (hstep : s.step e = some t)
    (hdisc : e.disciplined s = true) : DistinctPins t.table := by
  obtain ⟨n, hn⟩ := h
  cases e with
  | construct c =>
    simp only [Sketch.step, Option.some.injEq] at hstep
    subst hstep
    simp only [Event.disciplined, Bool.not_eq_true'] at hdisc
    exact new_distinctPins s.table c hlen hd hdisc
  | destroy k =>
    simp only [Sketch.step] at hstep
    simp only [Event.disciplined] at hdisc
    cases hk : s.live[k]? with
    | none => simp [hk] at hstep
    | some hdl =>
      simp only [hk] at hstep hdisc
      cases hdel : RCReader.delete s.table hdl with
      | none => simp [hdel] at hstep
      | some reg =>
        simp only [hdel, Option.some.injEq] at hstep
        subst hstep
        have hidx : hdl._RCReaderIndexNum < TOTAL_NUM_OF_PC_INTERRUPTS := by
          by_contra hc
          unfold RCReader.delete at hdel
          rw [if_neg hc] at hdel
          cases hdel
        have hguard : slot s.table (TOTAL_NUM_OF_PC_INTERRUPTS - 1) = none ∨
            hdl._RCReaderIndexNum = TOTAL_NUM_OF_PC_INTERRUPTS - 1 := by
          simp only [Bool.or_eq_true, Option.isNone_iff_eq_none, beq_iff_eq] at hdisc
          exact hdisc
        obtain ⟨reg', hreg', hdist⟩ :=
          delete_distinctPins s.table hdl n hlen hn hd hidx hguard
        rw [hdel] at hreg'
        cases hreg'
        exact hdist

/-- A disciplined sequence of events keeps the pins of the records in the table distinct. -/
theorem run_distinctPins (events : List Event) (s t : Sketch)
    (hlen : s.table.length = TOTAL_NUM_OF_PC_INTERRUPTS) (h : ∃ n, OccupiedBelow s.table n)
    (hd : DistinctPins s.table) (hrun : s.run events = some t)
    (hdisc : s.disciplined events = true) : DistinctPins t.table := by
  induction events generalizing s with
  | nil =>
    simp only [Sketch.run, Option.some.injEq] at hrun
    subst hrun
    exact hd
  | cons e es ih =>
    simp only [Sketch.run] at hrun
    simp only [Sketch.disciplined, Bool.and_eq_true] at hdisc
    cases hs : s.step e with
    | none => simp [hs] at hrun
    | some u =>
      simp only [hs] at hrun hdisc
      obtain ⟨hl, hm⟩ := step_occupiedBelow s u e hlen h hs
      exact ih u hl hm (step_distinctPins s u e hlen h hd hs hdisc.1) hrun hdisc.2

/-- C11, amended. From the empty table, after any sequence of constructor calls, each on a
pin that no record in the table is for at that time, and of destructions, each made with
the last slot free or being that of the object with the index of the last slot, no two
occupied slots hold a record for the same pin. -/
theorem distinct_pins_reachable (events : List Event) (s : Sketch)
    (hrun : Sketch.start.run events = some s)
    (hdisc : Sketch.start.disciplined events = true) : DistinctPins s.table := by
  have hstart : ∀ j, slot Sketch.start.table j = none := by
    intro j
    unfold Sketch.start _AllRCReaders slot
    rw [List.getD_eq_getElem?_getD]
    by_cases hj : j < TOTAL_NUM_OF_PC_INTERRUPTS
    · simp [List.getElem?_replicate, hj]
    · simp [List.getElem?_replicate, hj]
  have hocc : ∃ n, OccupiedBelow Sketch.start.table n := by
    refine ⟨0, fun j => ?_⟩
    rw [hstart j]
    simp
  have hd : DistinctPins Sketch.start.table := by
    intro i j r1 r2 _ h1 _
    rw [hstart i] at h1
    cases h1
  exact run_distinctPins events Sketch.start s (by simp [Sketch.start, _AllRCReaders]) hocc hd
    hrun hdisc

/-- Witness of C11, amended: the events of `churn`. -/
theorem distinct_pins_reachable_witness :
    Sketch.start.run churn = some churnResult ∧ DistinctPins churnResult.table :=
  ⟨by decide, distinct_pins_reachable churn churnResult (by decide) (by decide)⟩

end OnePerPin

section FailedHandle

/-- The destructor of an object constructed on a table whose 18 slots are all occupied
indexes the table at 19, outside its 18 slots, whatever the table holds by then. -/
theorem delete_of_failed_construction (reg later : Registry) (c : CtorCall)
    (hfull : ∀ i, i < TOTAL_NUM_OF_PC_INTERRUPTS → slot reg i ≠ none) :
    (c.run reg).1._RCReaderIndexNum = TOTAL_NUM_OF_PC_INTERRUPTS + 1 ∧
    RCReader.delete later (c.run reg).1 = none := by
  have hnone : findFreeSlot reg TOTAL_NUM_OF_PC_INTERRUPTS 0 = none :=
    findFreeSlot_none reg _ 0 (fun j _ hj => hfull j hj)
  have hidx : (c.run reg).1._RCReaderIndexNum = TOTAL_NUM_OF_PC_INTERRUPTS + 1 := by
    unfold CtorCall.run RCReader.new
    rw [hnone]
  refine ⟨hidx, ?_⟩
  unfold RCReader.delete
  rw [hidx, if_neg (by omega)]

/-- C21 on the code: on the table filled by eighteen constructor calls, a constructor call
on the pin left yields an object with index 19, which is not below the 18 slots of the
table; its destructor indexes the table there, which is undefined behaviour, where the
detailed read of the same object returns `RCR_InitFailed` without touching the table. From
the empty table the nineteen constructor calls lead to a state, and the destruction of the
nineteenth object then has no defined result. -/
theorem destructor_of_failed_handle_out_of_bounds :
    ((ctorOn RCReaderPin.RCR_PIN_A15 0 0).run fullTable).1._RCReaderIndexNum = 19 ∧
    ¬ (((ctorOn RCReaderPin.RCR_PIN_A15 0 0).run fullTable).1._RCReaderIndexNum <
        TOTAL_NUM_OF_PC_INTERRUPTS) ∧
    RCReader.delete fullTable ((ctorOn RCReaderPin.RCR_PIN_A15 0 0).run fullTable).1 = none ∧
    (RCReader.getMicroseconds fullTable 0
        ((ctorOn RCReaderPin.RCR_PIN_A15 0 0).run fullTable).1 7).map (fun out => out.status) =
      some RCRStatus.RCR_InitFailed ∧
    (Sketch.start.run allPinEvents).map (fun s => s.table) = some fullTable ∧
    Sketch.start.run (allPinEvents ++ [Event.destroy 18]) = none := by
  decide

end FailedHandle

section HeapSafety

/-- The shifting loop on a table of pointers of any kind is, on the table of contents, the
shifting loop of the destructor. -/
theorem shiftDownOf_eq_shiftDown (fuel i : Nat) (reg : Registry) :
    shiftDownOf fuel i reg = shiftDown fuel i reg := by
  induction fuel generalizing i reg with
  | zero => rfl
  | succ n ih =>
    unfold shiftDownOf shiftDown
    split
    · have hslot : slotOf reg i = slot reg i := rfl
      rw [hslot]
      cases slot reg i with
      | none => rfl
      | some r => exact ih (i + 1) _
    · rfl

/-- Reading a slot of a table of pointers after one slot was written. -/
theorem slotOf_set {α : Type} (table : List (Option α)) (k j : Nat) (v : Option α) :
    slotOf (table.set k v) j = if j = k ∧ k < table.length then v else slotOf table j := by
  unfold slotOf
  rw [List.getD_eq_getElem?_getD, List.getD_eq_getElem?_getD, List.getElem?_set]
  by_cases hjk : k = j
  · subst hjk
    by_cases hlt : k < table.length
    · simp [hlt]
    · have hnone : table[k]? = none := List.getElem?_eq_none (by omega)
      simp [hlt, hnone]
  · have hne : ¬ (j = k ∧ k < table.length) := fun hc => hjk hc.1.symm
    rw [if_neg hjk, if_neg hne]

/-- The shifting loop treats two tables with the same `NULL` slots alike: they have the same
`NULL` slots afterwards. -/
theorem shiftDownOf_same_nulls {α β : Type} (fuel i : Nat) (t1 : List (Option α))
    (t2 : List (Option β)) (hlen : t1.length = t2.length)
    (h : ∀ j, (slotOf t1 j).isSome = (slotOf t2 j).isSome) :
    (shiftDownOf fuel i t1).length = (shiftDownOf fuel i t2).length ∧
    ∀ j, (slotOf (shiftDownOf fuel i t1) j).isSome =
      (slotOf (shiftDownOf fuel i t2) j).isSome := by
  induction fuel generalizing i t1 t2 with
  | zero => exact ⟨hlen, h⟩
  | succ n ih =>
    unfold shiftDownOf
    by_cases hi : i < TOTAL_NUM_OF_PC_INTERRUPTS
    · rw [if_pos hi, if_pos hi]
      have hi2 := h i
      cases h1 : slotOf t1 i with
      | none =>
        cases h2 : slotOf t2 i with
        | none =>
          refine ⟨by simp [hlen], fun j => ?_⟩
          simp only []
          rw [slotOf_set, slotOf_set, hlen]
          split
          · rfl
          · exact h j
        | some q =>
          rw [h1, h2] at hi2
          cases hi2
      | some p =>
        cases h2 : slotOf t2 i with
        | none =>
          rw [h1, h2] at hi2
          cases hi2
        | some q =>
          simp only []
          apply ih (i + 1) _ _ (by simp [hlen])
          intro j
          rw [slotOf_set, slotOf_set, hlen]
          split
          · rfl
          · exact h j
    · rw [if_neg hi, if_neg hi]
      exact ⟨hlen, h⟩

/-- The search loop of the constructor ends inside the table when it finds a slot. -/
theorem findFreeSlot_lt (reg : Registry) (fuel i n : Nat)
    (h : findFreeSlot reg fuel i = some n) : n < TOTAL_NUM_OF_PC_INTERRUPTS := by
  induction fuel generalizing i with
  | zero =>
    unfold findFreeSlot at h
    cases h
  | succ m ih =>
    unfold findFreeSlot at h
    split at h
    · split at h
      · cases h
        assumption
      · exact ih (i + 1) h
    · cases h

/-- One event keeps the addresses in step with the contents: the table of addresses and the
table of contents have the same size and the same `NULL` slots. -/
theorem step_same_nulls (s t : HeapSketch) (e : Event)
    (hlen : s.heap.pointers.length = s.sketch.table.length)
    (h : ∀ j, (slotOf s.heap.pointers j).isSome = (slot s.sketch.table j).isSome)
    (hstep : s.step e = some t) :
    t.heap.pointers.length = t.sketch.table.length ∧
    ∀ j, (slotOf t.heap.pointers j).isSome = (slot t.sketch.table j).isSome := by
  cases e with
  | construct c =>
    simp only [HeapSketch.step, Sketch.step, Option.some.injEq] at hstep
    subst hstep
    simp only []
    unfold CtorCall.run RCReader.new RCReader.newOnHeap
    cases hf : findFreeSlot s.sketch.table TOTAL_NUM_OF_PC_INTERRUPTS 0 with
    | none =>
      simp only [if_true]
      exact ⟨hlen, h⟩
    | some n =>
      have hn := findFreeSlot_lt _ _ _ _ hf
      simp only []
      rw [if_neg (by omega)]
      refine ⟨by simp [hlen], fun j => ?_⟩
      simp only []
      have hslot : ∀ (reg : Registry) (k : Nat), slot reg k = slotOf reg k := fun _ _ => rfl
      rw [hslot, slotOf_set, slotOf_set, hlen]
      split
      · rfl
      · exact h j
  | destroy k =>
    simp only [HeapSketch.step, Sketch.step] at hstep
    cases hk : s.sketch.live[k]? with
    | none => simp [hk] at hstep
    | some hdl =>
      simp only [hk] at hstep
      cases hd : RCReader.delete s.sketch.table hdl with
      | none => simp [hd] at hstep
      | some reg =>
        simp only [hd] at hstep
        cases hh : RCReader.deleteOnHeap s.heap hdl with
        | none => simp [hh] at hstep
        | some heap =>
          simp only [hh, Option.some.injEq] at hstep
          subst hstep
          simp only []
          unfold RCReader.delete at hd
          unfold RCReader.deleteOnHeap at hh
          by_cases hidx : hdl._RCReaderIndexNum < TOTAL_NUM_OF_PC_INTERRUPTS
          · rw [if_pos hidx] at hd hh
            cases hrel : Heap.release s.heap.allocated
                (slotOf s.heap.pointers hdl._RCReaderIndexNum) with
            | none =>
              rw [hrel] at hh
              cases hh
            | some al =>
              rw [hrel] at hh
              simp only [Option.some.injEq] at hd hh
              subst hd
              subst hh
              simp only []
              rw [← shiftDownOf_eq_shiftDown]
              have hslot : ∀ (reg : Registry) (k : Nat), slot reg k = slotOf reg k :=
                fun _ _ => rfl
              have hpat := shiftDownOf_same_nulls TOTAL_NUM_OF_PC_INTERRUPTS
                ((hdl._RCReaderIndexNum + 1) % 256)
                (s.heap.pointers.set hdl._RCReaderIndexNum none)
                (s.sketch.table.set hdl._RCReaderIndexNum none) (by simp [hlen])
                (fun j => by
                  rw [slotOf_set, slotOf_set, hlen]
                  split
                  · rfl
                  · exact h j)
              exact ⟨hpat.1, fun j => by rw [hslot]; exact hpat.2 j⟩
          · rw [if_neg hidx] at hd
            cases hd

/-- A sequence of events keeps the addresses in step with the contents, and what it does to
the contents is what `Sketch.run` does. -/
theorem run_same_nulls (events : List Event) (s t : HeapSketch)
    (hlen : s.heap.pointers.length = s.sketch.table.length)
    (h : ∀ j, (slotOf s.heap.pointers j).isSome = (slot s.sketch.table j).isSome)
    (hrun : s.run events = some t) :
    s.sketch.run events = some t.sketch ∧
    t.heap.pointers.length = t.sketch.table.length ∧
    ∀ j, (slotOf t.heap.pointers j).isSome = (slot t.sketch.table j).isSome := by
  induction events generalizing s with
  | nil =>
    simp only [HeapSketch.run, Option.some.injEq] at hrun
    subst hrun
    exact ⟨rfl, hlen, h⟩
  | cons e es ih =>
    simp only [HeapSketch.run] at hrun
    cases hs : s.step e with
    | none => simp [hs] at hrun
    | some u =>
      simp only [hs] at hrun
      obtain ⟨hl, hp⟩ := step_same_nulls s u e hlen h hs
      obtain ⟨hr, hl2, hp2⟩ := ih u hl hp hrun
      refine ⟨?_, hl2, hp2⟩
      have hsk : s.sketch.step e = some u.sketch := by
        unfold HeapSketch.step at hs
        cases hse : s.sketch.step e with
        | none => simp [hse] at hs
        | some v =>
          simp only [hse] at hs
          cases e with
          | construct c =>
            simp only [Option.some.injEq] at hs
            subst hs
            rfl
          | destroy k =>
            simp only [] at hs
            cases hk : s.sketch.live[k]? with
            | none => simp [hk] at hs
            | some hdl =>
              simp only [hk] at hs
              cases hh : RCReader.deleteOnHeap s.heap hdl with
              | none => simp [hh] at hs
              | some heap =>
                simp only [hh, Option.some.injEq] at hs
                subst hs
                rfl
      simp only [Sketch.run, hsk]
      exact hr

/-- On every sequence of constructor calls and destructions that has a defined state, with
the heap taken into account, no pointer that is not `NULL` follows a `NULL` pointer in the
table of addresses. -/
theorem pointers_contiguous (events : List Event) (t : HeapSketch)
    (hrun : HeapSketch.start.run events = some t) (i j : Nat) (hij : i < j)
    (hfree : slotOf t.heap.pointers i = none) : slotOf t.heap.pointers j = none := by
  have hstart : ∀ (α : Type) (j : Nat),
      slotOf (List.replicate TOTAL_NUM_OF_PC_INTERRUPTS (none : Option α)) j = none := by
    intro α j
    unfold slotOf
    rw [List.getD_eq_getElem?_getD]
    by_cases hj : j < TOTAL_NUM_OF_PC_INTERRUPTS
    · simp [List.getElem?_replicate, hj]
    · simp [List.getElem?_replicate, hj]
  obtain ⟨hr, hl, hp⟩ := run_same_nulls events HeapSketch.start t
    (by simp [HeapSketch.start, Sketch.start, _AllRCReaders])
    (fun j => by
      have h1 : slotOf HeapSketch.start.heap.pointers j = none := hstart Nat j
      have h2 : slot HeapSketch.start.sketch.table j = none := hstart _RCReaderObject j
      rw [h1, h2]
      rfl)
    hrun
  have hcont := contiguous_reachable events t.sketch hr
  have hi : slot t.sketch.table i = none := by
    have hpi := hp i
    rw [hfree] at hpi
    cases hs : slot t.sketch.table i with
    | none => rfl
    | some r =>
      rw [hs] at hpi
      cases hpi
  by_cases hj : j < t.sketch.table.length
  · have hjn := hcont j hj i hij hi
    have hpj := hp j
    rw [hjn] at hpj
    cases hs : slotOf t.heap.pointers j with
    | none => rfl
    | some q =>
      rw [hs] at hpj
      cases hpj
  · unfold slotOf
    rw [List.getD_eq_getElem?_getD, List.getElem?_eq_none (by omega)]
    rfl

/-- C9 on the code: from the empty table, eighteen constructor calls fill the table with the
records at addresses 0..17. The destruction of the first object (index 0) leaves the
address 17 in slots 16 and 17. The destruction of the object with index 17 then frees the
record at address 17, and slot 16 still holds that address: a slot that is not `NULL` and
has no record. The destruction of the object with index 16 then deletes the record at
address 17 a second time, which is undefined behaviour: the sequence has no defined state in
which the occupied slots are a run from slot 0. -/
theorem double_delete_after_full_table :
    (HeapSketch.start.run fillEvents).map (fun s => s.heap.pointers) =
      some [some 0, some 1, some 2, some 3, some 4, some 5, some 6, some 7, some 8, some 9,
            some 10, some 11, some 12, some 13, some 14, some 15, some 16, some 17] ∧
    (HeapSketch.start.run (fillEvents ++ [Event.destroy 0])).map (fun s => s.heap.pointers) =
      some [some 1, some 2, some 3, some 4, some 5, some 6, some 7, some 8, some 9, some 10,
            some 11, some 12, some 13, some 14, some 15, some 16, some 17, some 17] ∧
    (HeapSketch.start.run (fillEvents ++ [Event.destroy 0])).map
        (fun s => s.sketch.live.map (fun h => h._RCReaderIndexNum)) =
      some [1, 2, 3, 4, 5, 6, 7, 8, 9, 10, 11, 12, 13, 14, 15, 16, 17] ∧
    (HeapSketch.start.run (fillEvents ++ [Event.destroy 0, Event.destroy 16])).map
        (fun s => (s.heap.pointers, s.heap.allocated,
          s.sketch.live.map (fun h => h._RCReaderIndexNum))) =
      some ([some 1, some 2, some 3, some 4, some 5, some 6, some 7, some 8, some 9, some 10,
             some 11, some 12, some 13, some 14, some 15, some 16, some 17, none],
            [16, 15, 14, 13, 12, 11, 10, 9, 8, 7, 6, 5, 4, 3, 2, 1],
            [1, 2, 3, 4, 5, 6, 7, 8, 9, 10, 11, 12, 13, 14, 15, 16]) ∧
    HeapSketch.start.run
      (fillEvents ++ [Event.destroy 0, Event.destroy 16, Event.destroy 15]) = none := by
  decide

end HeapSafety

end RCReaderModel
